import Mathlib

/-!
Traffic generators of the ns-3 fork: `MyApp` and `CustomBulkApplication`.

A shallow embedding of the two sender applications

* `MyApp` (`old_scracth/mytest.cc`), the constant-bit-rate sender that
  re-schedules itself through the simulator, and
* `CustomBulkApplication`
  (`src/traffic-generation/model/custom-bulk-application.cc`), the bulk sender
  that pushes data until the socket pushes back,

together with the two collaborators they talk to: the event scheduler and the
transport socket.  The socket is represented by the trace of calls issued on
it; the values `Socket::Send` returns to the bulk sender are supplied by the
environment as a list.  Virtual time is an exact rational number of seconds.
Machine integers are naturals or integers with explicit wrap-around.
-/

namespace NS3

/-! ## Machine integers -/

/-- Value of a C++ `int` (32 bit, two's complement) holding `z`. -/
def toInt32 (z : Int) : Int := (z + 2 ^ 31) % 2 ^ 32 - 2 ^ 31

/-- The cast `(unsigned) actual` of a C++ `int` to a 32-bit unsigned value. -/
def toUnsigned (z : Int) : Nat := (z % 2 ^ 32).toNat

/-! ## The scheduler -/

/-- Modelled from the spec: an event waiting in the scheduler, with its handle
and the virtual time at which it is due. -/
structure SchedEvent where
  uid : Nat
  time : ℚ
  deriving DecidableEq

/-- Modelled from the spec: the Scheduler (`Simulator` of ns-3, not part of the
two source files).  It offers `schedule(delay, callback) -> eventHandle`,
`cancel(eventHandle)`, `isPending(eventHandle)` and `now()`; a cancelled event
never invokes its callback, and virtual time advances only between callback
invocations. -/
structure Scheduler where
  now : ℚ
  nextUid : Nat
  pending : List SchedEvent

/-- Modelled from the spec: `schedule(delay, callback)`, the call
`Simulator::Schedule (delay, ...)`; a fresh event is due at `now + delay`. -/
def Scheduler.schedule (sch : Scheduler) (delay : ℚ) : Scheduler × Nat :=
  ({ sch with nextUid := sch.nextUid + 1,
              pending := sch.pending ++ [⟨sch.nextUid, sch.now + delay⟩] },
   sch.nextUid)

/-- Modelled from the spec: `isPending(eventHandle)`, the test
`EventId::IsRunning`; the event is still waiting to be run. -/
def Scheduler.isPending (sch : Scheduler) (id : Nat) : Bool :=
  sch.pending.any (fun e => e.uid == id)

/-- Modelled from the spec: `cancel(eventHandle)`, the call `Simulator::Cancel`;
the event will never invoke its callback. -/
def Scheduler.cancel (sch : Scheduler) (id : Nat) : Scheduler :=
  { sch with pending := sch.pending.filter (fun e => e.uid != id) }

/-- Modelled from the spec: the order in which the scheduler runs events, by
time and then by handle. -/
def SchedEvent.earlier (a b : SchedEvent) : Bool :=
  a.time < b.time || (a.time == b.time && a.uid < b.uid)

/-- Modelled from the spec: the event the scheduler runs first among the
waiting ones. -/
def Scheduler.earliest : List SchedEvent → Option SchedEvent
  | [] => none
  | e :: es =>
    match Scheduler.earliest es with
    | none => some e
    | some m => if m.earlier e then some m else some e

/-- Modelled from the spec: the scheduler takes the next event out of the queue
and moves the clock to its time. -/
def Scheduler.pop (sch : Scheduler) : Option (SchedEvent × Scheduler) :=
  match Scheduler.earliest sch.pending with
  | none => none
  | some e =>
    some (e, { sch with now := e.time,
                        pending := sch.pending.filter (fun x => x.uid != e.uid) })

/-! ## `MyApp`, the paced sender -/

/-- Calls `MyApp` issues on its socket. -/
inductive SockCall where
  | bind
  | connect
  | send (size : Nat)
  | close
  deriving DecidableEq

/-- Member variables of `MyApp`.  `socket` tells whether `m_socket` is a
non-null pointer; `sendEvent` is the handle held in `m_sendEvent` (`none` for
a default-constructed `EventId`); `dataRate` is `m_dataRate.GetBitRate ()`. -/
structure MyApp where
  socket : Bool
  packetSize : Nat
  nPackets : Nat
  dataRate : Nat
  sendEvent : Option Nat
  running : Bool
  packetsSent : Nat

/-- The constructor `MyApp::MyApp`. -/
def MyApp.new : MyApp :=
  { socket := false, packetSize := 0, nPackets := 0, dataRate := 0,
    sendEvent := none, running := false, packetsSent := 0 }

/-- The method `MyApp::Setup`. -/
def MyApp.Setup (a : MyApp) (socket : Bool) (packetSize nPackets dataRate : Nat) : MyApp :=
  { a with socket := socket, packetSize := packetSize, nPackets := nPackets,
           dataRate := dataRate }

/-- A simulation with one `MyApp`: the scheduler, the timed trace of the calls
made on the socket, and the application.  `aborted` records that the process
died on a null `m_socket`. -/
structure PacedSim where
  sched : Scheduler
  trace : List (ℚ × SockCall)
  aborted : Bool
  app : MyApp

/-- A simulation whose clock reads `t0`, with nothing scheduled yet. -/
def PacedSim.init (t0 : ℚ) (a : MyApp) : PacedSim :=
  { sched := { now := t0, nextUid := 0, pending := [] }, trace := [],
    aborted := false, app := a }

/-- Record a call on the socket at the current virtual time. -/
def PacedSim.call (w : PacedSim) (c : SockCall) : PacedSim :=
  { w with trace := w.trace ++ [(w.sched.now, c)] }

/-- The delay of `MyApp::ScheduleTx`:
`Seconds (m_packetSize * 8 / static_cast<double> (m_dataRate.GetBitRate ()))`.
The dividend is the 32-bit unsigned product of the code, wrap-around included.
The code divides in double precision and `Seconds` makes an ns-3 `Time` of the
quotient; neither is part of the source files, and the quotient is taken here
as the exact rational, an idealisation of the code. It is the value of the code
where the double quotient and its `Time` are exact: a zero dividend (delay 0),
and the 8000 bits at 1000000 bit/s of `main`, whose `Time` is 8000000 ns.
Elsewhere the code has this value up to rounding. For a zero rate the quotient
of the code is infinite or not a number and no `Time` is defined; the value
here is 0. -/
def MyApp.txDelay (a : MyApp) : ℚ :=
  ((a.packetSize * 8 % 2 ^ 32 : Nat) : ℚ) / (a.dataRate : ℚ)

/-- The method `MyApp::ScheduleTx`. -/
def MyApp.ScheduleTx (w : PacedSim) : PacedSim :=
  if w.app.running then
    let r := w.sched.schedule w.app.txDelay
    { w with sched := r.1, app := { w.app with sendEvent := some r.2 } }
  else w

/-- The method `MyApp::SendPacket`. -/
def MyApp.SendPacket (w : PacedSim) : PacedSim :=
  if w.app.socket then
    let w1 := w.call (.send w.app.packetSize)
    let sent := (w1.app.packetsSent + 1) % 2 ^ 32
    let w2 := { w1 with app := { w1.app with packetsSent := sent } }
    if sent < w2.app.nPackets then MyApp.ScheduleTx w2
    else
      let w3 := w2.call .close
      { w3 with app := { w3.app with running := false } }
  else { w with aborted := true }

/-- The method `MyApp::StartApplication`. -/
def MyApp.StartApplication (w : PacedSim) : PacedSim :=
  let w1 := { w with app := { w.app with running := true, packetsSent := 0 } }
  if w1.app.socket then
    MyApp.SendPacket ((w1.call .bind).call .connect)
  else { w1 with aborted := true }

/-- The method `MyApp::StopApplication`. -/
def MyApp.StopApplication (w : PacedSim) : PacedSim :=
  let w1 := { w with app := { w.app with running := false } }
  let w2 :=
    match w1.app.sendEvent with
    | some id =>
      if w1.sched.isPending id then { w1 with sched := w1.sched.cancel id } else w1
    | none => w1
  if w2.app.socket then w2.call .close else w2

/-- What can happen to a simulation with one `MyApp`: the orchestrator starts
or stops the application at the current virtual time, the scheduler runs the
next waiting event, or the clock moves forward to `t` while nothing is due
before `t`. -/
inductive PacedEvent where
  | start
  | stop
  | fire
  | advance (t : ℚ)

/-- The scheduler runs the next waiting event; every event of this simulation
is a `MyApp::SendPacket` callback. -/
def PacedSim.fire (w : PacedSim) : PacedSim :=
  match w.sched.pop with
  | none => w
  | some (_, sch) => MyApp.SendPacket { w with sched := sch }

/-- One step of the simulation.  Nothing runs once the process has died. -/
def PacedSim.step (w : PacedSim) (ev : PacedEvent) : PacedSim :=
  if w.aborted then w
  else
    match ev with
    | .start => MyApp.StartApplication w
    | .stop => MyApp.StopApplication w
    | .fire => w.fire
    | .advance t =>
      if w.sched.now ≤ t ∧ ∀ e ∈ w.sched.pending, t ≤ e.time then
        { w with sched := { w.sched with now := t } }
      else w

/-- Run a sequence of events. -/
def PacedSim.steps (w : PacedSim) (evs : List PacedEvent) : PacedSim :=
  evs.foldl PacedSim.step w

/-- The loop of `Simulator::Run`: fire the waiting events one after the other until none
is left (at most `fuel` of them). -/
def PacedSim.run : Nat → PacedSim → PacedSim
  | 0, w => w
  | fuel + 1, w =>
    if w.sched.pending.isEmpty || w.aborted then w
    else PacedSim.run fuel (w.step .fire)

/-- The run of `main` up to the start: a `MyApp` is created, set up with a
socket, and started at virtual time `t0`. -/
def PacedSim.started (t0 : ℚ) (packetSize nPackets dataRate : Nat) : PacedSim :=
  (PacedSim.init t0 (MyApp.new.Setup true packetSize nPackets dataRate)).step .start

/-- A sequence of events in which the application is started only while the
scheduler holds no pending event, when run from `w`. -/
def PacedSim.startsWhenIdle : PacedSim → List PacedEvent → Bool
  | _, [] => true
  | w, ev :: evs =>
    (match ev with
      | .start => w.sched.pending.isEmpty
      | _ => true) && PacedSim.startsWhenIdle (w.step ev) evs

/-- The sends of a trace, each with its virtual time and packet size. -/
def sendsOf (tr : List (ℚ × SockCall)) : List (ℚ × Nat) :=
  tr.filterMap (fun p => match p.2 with
    | .send n => some (p.1, n)
    | _ => none)

/-- The virtual times at which a trace closes the socket. -/
def closesOf (tr : List (ℚ × SockCall)) : List ℚ :=
  tr.filterMap (fun p => match p.2 with
    | .close => some p.1
    | _ => none)

/-! ## `CustomBulkApplication`, the bulk sender -/

/-- Modelled from the spec: the result of `socketType()`, the enumeration
`Socket::SocketType` of ns-3 (declared outside the two source files). -/
inductive SocketType where
  | stream
  | seqpacket
  | dgram
  | raw
  deriving DecidableEq

/-- Address family of `m_peer`, as far as `StartApplication` looks at it. -/
inductive PeerKind where
  | inet6
  | inet
  | other
  deriving DecidableEq

/-- Calls `CustomBulkApplication` issues on its socket; a send is recorded
with the size of the packet and the value `Socket::Send` returned. -/
inductive BulkCall where
  | bind6
  | bind
  | connect
  | shutdownRecv
  | setConnectCallback
  | setSendCallback
  | send (size : Nat) (ret : Int)
  | close
  deriving DecidableEq

/-- Lines the bulk sender writes to the log. -/
inductive LogLine where
  | startTime (t : ℚ)
  | flowDuration (d : ℚ)
  | nullSocketWarning
  deriving DecidableEq

/-- Member variables of `CustomBulkApplication`.  `socket` is `m_socket`
(`none` for a null pointer, otherwise the type of the socket); `tid` stands for
the type of socket the configured factory creates. -/
structure BulkApp where
  socket : Option SocketType
  connected : Bool
  totBytes : Nat
  sendSize : Nat
  maxBytes : Nat
  tid : SocketType
  peer : PeerKind

/-- The constructor `CustomBulkApplication::CustomBulkApplication`, with the attributes
`SendSize`, `MaxBytes`, `Protocol` and `Remote` set. -/
def BulkApp.new (sendSize maxBytes : Nat) (tid : SocketType) (peer : PeerKind) : BulkApp :=
  { socket := none, connected := false, totBytes := 0, sendSize := sendSize,
    maxBytes := maxBytes, tid := tid, peer := peer }

/-- A simulation with one bulk sender: the clock, the trace of the calls made
on the socket, the log, and the application.  `aborted` records that the
process died (`NS_FATAL_ERROR`, or a null `m_socket` dereferenced). -/
structure BulkSim where
  now : ℚ
  trace : List BulkCall
  log : List LogLine
  aborted : Bool
  app : BulkApp

/-- A simulation whose clock reads `t0`, nothing done yet. -/
def BulkSim.init (t0 : ℚ) (a : BulkApp) : BulkSim :=
  { now := t0, trace := [], log := [], aborted := false, app := a }

/-- Record a call on the socket. -/
def BulkSim.call (w : BulkSim) (c : BulkCall) : BulkSim :=
  { w with trace := w.trace ++ [c] }

/-- The loop condition of `SendData`: `m_maxBytes == 0 || m_totBytes < m_maxBytes`. -/
def BulkApp.moreToSend (a : BulkApp) : Bool :=
  a.maxBytes == 0 || a.totBytes < a.maxBytes

/-- The size of the next packet of `SendData`: `m_sendSize`, cut down to
`m_maxBytes - m_totBytes` when `m_maxBytes > 0`. -/
def BulkApp.toSend (a : BulkApp) : Nat :=
  if a.maxBytes > 0 then min a.sendSize (a.maxBytes - a.totBytes) else a.sendSize

/-- The body of the `while` loop of `SendData` up to the test that leaves it:
a packet of `toSend` bytes is handed to `Socket::Send`, and what the socket
reports as accepted is added to `m_totBytes` when it is positive.  `r` is the
value `Socket::Send` comes up with; the `int` it returns is `toInt32 r`. -/
def BulkApp.sendOnce (w : BulkSim) (r : Int) : BulkSim :=
  let toSend := w.app.toSend
  let actual := toInt32 r
  let w1 := w.call (.send toSend actual)
  let tot := if actual > 0 then (w1.app.totBytes + actual.toNat) % 2 ^ 64
             else w1.app.totBytes
  { w1 with app := { w1.app with totBytes := tot } }

/-- The test `(unsigned) actual != toSend` that leaves the loop of `SendData`. -/
def BulkApp.leavesLoop (w : BulkSim) (r : Int) : Bool :=
  toUnsigned (toInt32 r) != w.app.toSend

/-- The `while` loop of `CustomBulkApplication::SendData`.  `rets` holds the
values of the coming calls of `Socket::Send`; the result is `none` when the
loop asks for more of them than there are. -/
def BulkApp.sendLoop : BulkSim → List Int → Option (BulkSim × List Int)
  | w, [] =>
    if w.app.moreToSend then
      if w.app.socket.isNone then some ({ w with aborted := true }, []) else none
    else some (w, [])
  | w, r :: rest =>
    if w.app.moreToSend then
      if w.app.socket.isNone then some ({ w with aborted := true }, r :: rest)
      else if BulkApp.leavesLoop w r then some (BulkApp.sendOnce w r, rest)
      else BulkApp.sendLoop (BulkApp.sendOnce w r) rest
    else some (w, r :: rest)

/-- The end of `SendData`: close once everything is sent. -/
def BulkApp.closeIfDone (startTime : ℚ) (w : BulkSim) : BulkSim :=
  if w.aborted then w
  else if w.app.totBytes == w.app.maxBytes && w.app.connected then
    if w.app.socket.isNone then { w with aborted := true }
    else
      let w1 := w.call .close
      let w2 := { w1 with app := { w1.app with connected := false } }
      let endTime := w2.now
      { w2 with log := w2.log ++ [.flowDuration (endTime - startTime)] }
  else w

/-- The method `CustomBulkApplication::SendData`. -/
def BulkApp.SendData (w : BulkSim) (rets : List Int) : Option (BulkSim × List Int) :=
  let startTime := w.now
  let w0 := { w with log := w.log ++ [.startTime startTime] }
  match BulkApp.sendLoop w0 rets with
  | none => none
  | some (w1, rest) => some (BulkApp.closeIfDone startTime w1, rest)

/-- The method `CustomBulkApplication::StartApplication`. -/
def BulkApp.StartApplication (w : BulkSim) (rets : List Int) : Option (BulkSim × List Int) :=
  let opened : BulkSim :=
    if w.app.socket.isNone then
      let w1 := { w with app := { w.app with socket := some w.app.tid } }
      if w1.app.socket ≠ some .stream ∧ w1.app.socket ≠ some .seqpacket then
        { w1 with aborted := true }
      else
        let w2 :=
          match w1.app.peer with
          | .inet6 => w1.call .bind6
          | .inet => w1.call .bind
          | .other => w1
        (((w2.call .connect).call .shutdownRecv).call .setConnectCallback).call
          .setSendCallback
    else w
  if opened.aborted then some (opened, rets)
  else if opened.app.connected then BulkApp.SendData opened rets
  else some (opened, rets)

/-- The method `CustomBulkApplication::StopApplication`. -/
def BulkApp.StopApplication (w : BulkSim) : BulkSim :=
  if w.app.socket.isSome then
    let w1 := w.call .close
    { w1 with app := { w1.app with connected := false } }
  else { w with log := w.log ++ [.nullSocketWarning] }

/-- The method `CustomBulkApplication::ConnectionSucceeded`. -/
def BulkApp.ConnectionSucceeded (w : BulkSim) (rets : List Int) :
    Option (BulkSim × List Int) :=
  BulkApp.SendData { w with app := { w.app with connected := true } } rets

/-- The method `CustomBulkApplication::ConnectionFailed`. -/
def BulkApp.ConnectionFailed (w : BulkSim) : BulkSim := w

/-- The method `CustomBulkApplication::DataSend`. -/
def BulkApp.DataSend (w : BulkSim) (rets : List Int) : Option (BulkSim × List Int) :=
  if w.app.connected then BulkApp.SendData w rets else some (w, rets)

/-- What can happen to a simulation with one bulk sender: the orchestrator
starts or stops the application, the socket reports the result of the connect
or that send buffer space is available, or the clock moves forward to `t`. -/
inductive BulkEvent where
  | start
  | stop
  | connectSucceeded
  | connectFailed
  | dataSend
  | advance (t : ℚ)

/-- One step of the simulation.  Nothing runs once the process has died, and
the socket delivers its callbacks only to an application that holds it. -/
def BulkSim.step (w : BulkSim) (ev : BulkEvent) (rets : List Int) :
    Option (BulkSim × List Int) :=
  if w.aborted then some (w, rets)
  else
    match ev with
    | .start => BulkApp.StartApplication w rets
    | .stop => some (BulkApp.StopApplication w, rets)
    | .connectSucceeded =>
      if w.app.socket.isSome then BulkApp.ConnectionSucceeded w rets else some (w, rets)
    | .connectFailed =>
      if w.app.socket.isSome then some (BulkApp.ConnectionFailed w, rets) else some (w, rets)
    | .dataSend =>
      if w.app.socket.isSome then BulkApp.DataSend w rets else some (w, rets)
    | .advance t => some (if w.now ≤ t then { w with now := t } else w, rets)

/-- Run a sequence of events, handing the values of `rets` to the calls of
`Socket::Send` in order. -/
def BulkSim.steps : BulkSim → List BulkEvent → List Int → Option (BulkSim × List Int)
  | w, [], rets => some (w, rets)
  | w, ev :: evs, rets =>
    match w.step ev rets with
    | none => none
    | some (w1, rest) => BulkSim.steps w1 evs rest

/-- The sends of a trace: size asked for and value returned. -/
def bulkSends (tr : List BulkCall) : List (Nat × Int) :=
  tr.filterMap (fun c => match c with
    | .send n r => some (n, r)
    | _ => none)

/-- Number of times a trace closes the socket. -/
def bulkCloses (tr : List BulkCall) : Nat :=
  tr.count .close

/-- The chunks in which `maxBytes` bytes leave in sends of `sendSize` bytes, in
the words of the specification: `sendSize` repeated `maxBytes / sendSize`
times, followed by the remainder `maxBytes % sendSize` when that is not zero. -/
def chunksOf (sendSize maxBytes : Nat) : List Nat :=
  List.replicate (maxBytes / sendSize) sendSize ++
    (if maxBytes % sendSize = 0 then [] else [maxBytes % sendSize])

/-- Total of the positive values among the results of the sends. -/
def acceptedSum (l : List (Nat × Int)) : Nat :=
  (l.map (fun c => if c.2 > 0 then c.2.toNat else 0)).sum

/-- What the send loop works on: `m_totBytes`, `m_maxBytes`, `m_sendSize` and
the sends made so far. -/
def BulkSim.core (w : BulkSim) : Nat × Nat × Nat × List (Nat × Int) :=
  (w.app.totBytes, w.app.maxBytes, w.app.sendSize, bulkSends w.trace)

/-! ## The paced sender: lemmas -/

theorem closesOf_append (a b : List (ℚ × SockCall)) :
    closesOf (a ++ b) = closesOf a ++ closesOf b := by
  simp [closesOf, List.filterMap_append]

theorem sendsOf_append (a b : List (ℚ × SockCall)) :
    sendsOf (a ++ b) = sendsOf a ++ sendsOf b := by
  simp [sendsOf, List.filterMap_append]

theorem PacedSim.run_of_no_pending (fuel : Nat) (w : PacedSim)
    (h : w.sched.pending = []) : PacedSim.run fuel w = w := by
  cases fuel <;> simp [PacedSim.run, h]

theorem PacedSim.fire_more (w : PacedSim) (e : SchedEvent)
    (hab : w.aborted = false) (hsock : w.app.socket = true)
    (hrun : w.app.running = true) (hq : w.sched.pending = [e])
    (hn : w.app.nPackets < 2 ^ 32) (hlt : w.app.packetsSent + 1 < w.app.nPackets) :
    w.step .fire =
      { sched := { now := e.time, nextUid := w.sched.nextUid + 1,
                   pending := [⟨w.sched.nextUid, e.time + w.app.txDelay⟩] },
        trace := w.trace ++ [(e.time, .send w.app.packetSize)],
        aborted := false,
        app := { w.app with packetsSent := w.app.packetsSent + 1,
                            sendEvent := some w.sched.nextUid } } := by
  obtain ⟨⟨now, uid, pend⟩, tr, ab, ⟨sock, ps, n, rate, ev, running, sent⟩⟩ := w
  simp only at hab hsock hrun hq hn hlt
  subst hab hsock hrun hq
  have hmod : (sent + 1) % 4294967296 = sent + 1 := Nat.mod_eq_of_lt (by omega)
  simp [PacedSim.step, PacedSim.fire, Scheduler.pop, Scheduler.earliest, MyApp.SendPacket,
    MyApp.ScheduleTx, PacedSim.call, Scheduler.schedule, MyApp.txDelay, hmod, hlt]

theorem PacedSim.fire_last (w : PacedSim) (e : SchedEvent)
    (hab : w.aborted = false) (hsock : w.app.socket = true)
    (hq : w.sched.pending = [e])
    (hn : w.app.nPackets < 2 ^ 32) (hlt : w.app.packetsSent + 1 = w.app.nPackets) :
    w.step .fire =
      { sched := { now := e.time, nextUid := w.sched.nextUid, pending := [] },
        trace := w.trace ++ [(e.time, .send w.app.packetSize), (e.time, .close)],
        aborted := false,
        app := { w.app with packetsSent := w.app.packetsSent + 1, running := false } } := by
  obtain ⟨⟨now, uid, pend⟩, tr, ab, ⟨sock, ps, n, rate, ev, running, sent⟩⟩ := w
  simp only at hab hsock hq hn hlt
  subst hab hsock hq hlt
  have hmod : (sent + 1) % 4294967296 = sent + 1 := Nat.mod_eq_of_lt (by omega)
  simp [PacedSim.step, PacedSim.fire, Scheduler.pop, Scheduler.earliest, MyApp.SendPacket,
    PacedSim.call, hmod]

theorem PacedSim.run_unfold (fuel : Nat) (w : PacedSim) (e : SchedEvent)
    (hab : w.aborted = false) (hq : w.sched.pending = [e]) :
    PacedSim.run (fuel + 1) w = PacedSim.run fuel (w.step .fire) := by
  simp [PacedSim.run, hq, hab]

theorem PacedSim.run_to_completion (m : Nat) :
    ∀ (w : PacedSim) (e : SchedEvent) (fuel : Nat),
      w.aborted = false → w.app.socket = true → w.app.running = true →
      w.sched.pending = [e] → w.app.nPackets < 2 ^ 32 →
      w.app.packetsSent + (m + 1) = w.app.nPackets → m + 1 ≤ fuel →
      (PacedSim.run fuel w).sched.pending = [] ∧
      (PacedSim.run fuel w).aborted = false ∧
      (PacedSim.run fuel w).app.running = false ∧
      (PacedSim.run fuel w).app.packetsSent = w.app.nPackets ∧
      (PacedSim.run fuel w).trace =
        w.trace ++
          (List.range (m + 1)).map
            (fun (k : Nat) => (e.time + (k : ℚ) * w.app.txDelay, SockCall.send w.app.packetSize)) ++
          [(e.time + (m : ℚ) * w.app.txDelay, SockCall.close)] := by
  induction m with
  | zero =>
    intro w e fuel hab hsock hrun hq hn hsent hfuel
    obtain ⟨f, rfl⟩ : ∃ f, fuel = f + 1 := ⟨fuel - 1, by omega⟩
    rw [PacedSim.run_unfold f w e hab hq,
      PacedSim.fire_last w e hab hsock hq hn (by omega),
      PacedSim.run_of_no_pending f _ rfl]
    simp [List.range_succ]
    omega
  | succ m ih =>
    intro w e fuel hab hsock hrun hq hn hsent hfuel
    obtain ⟨f, rfl⟩ : ∃ f, fuel = f + 1 := ⟨fuel - 1, by omega⟩
    have hstep := PacedSim.fire_more w e hab hsock hrun hq hn (by omega)
    rw [PacedSim.run_unfold f w e hab hq]
    obtain ⟨h1, h2, h3, h4, h5⟩ :=
      ih (w.step .fire) ⟨w.sched.nextUid, e.time + w.app.txDelay⟩ f
        (by rw [hstep]) (by rw [hstep]; exact hsock) (by rw [hstep]; exact hrun)
        (by rw [hstep]) (by rw [hstep]; exact hn) (by rw [hstep]; simp only; omega) (by omega)
    have hn' : (w.step .fire).app.nPackets = w.app.nPackets := by rw [hstep]
    have hd' : (w.step .fire).app.txDelay = w.app.txDelay := by rw [hstep]; rfl
    have hp' : (w.step .fire).app.packetSize = w.app.packetSize := by rw [hstep]
    have ht' : (w.step .fire).trace = w.trace ++ [(e.time, .send w.app.packetSize)] := by
      rw [hstep]
    refine ⟨h1, h2, h3, h4.trans hn', ?_⟩
    rw [h5, hd', hp', ht', List.range_succ_eq_map (m + 1)]
    simp only [List.map_cons, List.map_map, List.append_assoc, List.singleton_append,
      List.cons_append, List.nil_append]
    have e0 : e.time + ((0 : Nat) : ℚ) * w.app.txDelay = e.time := by simp
    have ek : ∀ k : Nat, e.time + w.app.txDelay + (k : ℚ) * w.app.txDelay
        = e.time + ((k + 1 : Nat) : ℚ) * w.app.txDelay := by
      intro k; push_cast; ring
    rw [e0, ek m]
    congr 3
    apply List.map_congr_left
    intro k _
    simp only [Function.comp, Nat.succ_eq_add_one, ek k]

theorem PacedSim.start_then_run (t0 : ℚ) (ps n rate fuel : Nat)
    (hn1 : 1 ≤ n) (hn : n < 2 ^ 32) (hfuel : n - 1 ≤ fuel) :
    (PacedSim.run fuel (PacedSim.started t0 ps n rate)).sched.pending = [] ∧
    (PacedSim.run fuel (PacedSim.started t0 ps n rate)).aborted = false ∧
    (PacedSim.run fuel (PacedSim.started t0 ps n rate)).app.running = false ∧
    (PacedSim.run fuel (PacedSim.started t0 ps n rate)).app.packetsSent = n ∧
    (PacedSim.run fuel (PacedSim.started t0 ps n rate)).trace =
      [(t0, SockCall.bind), (t0, SockCall.connect)] ++
        (List.range n).map (fun (k : Nat) =>
          (t0 + (k : ℚ) * (MyApp.new.Setup true ps n rate).txDelay, SockCall.send ps)) ++
        [(t0 + ((n - 1 : Nat) : ℚ) * (MyApp.new.Setup true ps n rate).txDelay, SockCall.close)] := by
  obtain ⟨m, rfl⟩ : ∃ m, n = m + 1 := ⟨n - 1, by omega⟩
  cases m with
  | zero =>
    have h0 : PacedSim.started t0 ps 1 rate =
        { sched := { now := t0, nextUid := 0, pending := [] },
          trace := [(t0, .bind), (t0, .connect), (t0, .send ps), (t0, .close)],
          aborted := false,
          app := { socket := true, packetSize := ps, nPackets := 1, dataRate := rate,
                   sendEvent := none, running := false, packetsSent := 1 } } := by
      simp [PacedSim.started, PacedSim.step, PacedSim.init, MyApp.StartApplication, MyApp.SendPacket,
        PacedSim.call, MyApp.new, MyApp.Setup]
    rw [h0, PacedSim.run_of_no_pending fuel _ rfl]
    simp [List.range_succ]
  | succ m =>
    have hmod : (1 : Nat) % 4294967296 = 1 := by norm_num
    have h0 : PacedSim.started t0 ps (m + 1 + 1) rate =
        { sched := { now := t0, nextUid := 1,
                     pending := [⟨0, t0 + (MyApp.new.Setup true ps (m + 1 + 1) rate).txDelay⟩] },
          trace := [(t0, .bind), (t0, .connect), (t0, .send ps)],
          aborted := false,
          app := { socket := true, packetSize := ps, nPackets := m + 1 + 1, dataRate := rate,
                   sendEvent := some 0, running := true, packetsSent := 1 } } := by
      simp [PacedSim.started, PacedSim.step, PacedSim.init, MyApp.StartApplication, MyApp.SendPacket,
        PacedSim.call, MyApp.new, MyApp.Setup, MyApp.ScheduleTx, Scheduler.schedule,
        MyApp.txDelay]
    obtain ⟨h1, h2, h3, h4, h5⟩ := PacedSim.run_to_completion m
      (PacedSim.started t0 ps (m + 1 + 1) rate)
      ⟨0, t0 + (MyApp.new.Setup true ps (m + 1 + 1) rate).txDelay⟩ fuel
      (by rw [h0]) (by rw [h0]) (by rw [h0]) (by rw [h0]) (by rw [h0]; exact hn)
      (by rw [h0]; simp only; omega) (by omega)
    refine ⟨h1, h2, h3, h4.trans (by rw [h0]), ?_⟩
    rw [h5, List.range_succ_eq_map (m + 1)]
    have hd : (PacedSim.started t0 ps (m + 1 + 1) rate).app.txDelay
        = (MyApp.new.Setup true ps (m + 1 + 1) rate).txDelay := by rw [h0]; rfl
    have hp : (PacedSim.started t0 ps (m + 1 + 1) rate).app.packetSize
        = ps := by rw [h0]
    have ht : (PacedSim.started t0 ps (m + 1 + 1) rate).trace
        = [(t0, .bind), (t0, .connect), (t0, .send ps)] := by rw [h0]
    rw [hd, hp, ht]
    simp only [List.map_cons, List.map_map, List.append_assoc, List.singleton_append,
      List.cons_append, List.nil_append, Nat.add_sub_cancel]
    generalize (MyApp.new.Setup true ps (m + 1 + 1) rate).txDelay = d
    have e0 : t0 + ((0 : Nat) : ℚ) * d = t0 := by simp
    have ek : ∀ k : Nat, t0 + d + (k : ℚ) * d = t0 + ((k + 1 : Nat) : ℚ) * d := by
      intro k; push_cast; ring
    rw [e0, ek m]
    congr 4
    apply List.map_congr_left
    intro k _
    simp only [Function.comp, Nat.succ_eq_add_one, ek k]

theorem PacedSim.steps_append (w : PacedSim) (xs ys : List PacedEvent) :
    w.steps (xs ++ ys) = (w.steps xs).steps ys := by
  simp [PacedSim.steps, List.foldl_append]

theorem PacedSim.after_fires (t0 : ℚ) (ps n rate : Nat) (hn : n < 2 ^ 32) (k : Nat)
    (hk : k + 1 < n) :
    (PacedSim.started t0 ps n rate).steps (List.replicate k .fire) =
      { sched := { now := t0 + (k : ℚ) * (MyApp.new.Setup true ps n rate).txDelay,
                   nextUid := k + 1,
                   pending := [⟨k, t0 + ((k + 1 : Nat) : ℚ) * (MyApp.new.Setup true ps n rate).txDelay⟩] },
        trace := [(t0, .bind), (t0, .connect)] ++
          (List.range (k + 1)).map (fun (j : Nat) =>
            (t0 + (j : ℚ) * (MyApp.new.Setup true ps n rate).txDelay, SockCall.send ps)),
        aborted := false,
        app := { socket := true, packetSize := ps, nPackets := n, dataRate := rate,
                 sendEvent := some k, running := true, packetsSent := k + 1 } } := by
  induction k with
  | zero =>
    have hlt : (1 : Nat) % 4294967296 < n := by omega
    simp [PacedSim.steps, PacedSim.started, PacedSim.step, PacedSim.init,
      MyApp.StartApplication, MyApp.SendPacket, PacedSim.call, MyApp.new, MyApp.Setup,
      MyApp.ScheduleTx, Scheduler.schedule, MyApp.txDelay, hlt, List.range_succ]
  | succ k ih =>
    rw [List.replicate_succ', PacedSim.steps_append, ih (by omega)]
    simp only [PacedSim.steps, List.foldl_cons, List.foldl_nil]
    rw [PacedSim.fire_more _ ⟨k, t0 + ((k + 1 : Nat) : ℚ) * (MyApp.new.Setup true ps n rate).txDelay⟩
      rfl rfl rfl rfl hn (by simp only; omega)]
    have hd : ∀ b ev r sent, (⟨b, ps, n, rate, ev, r, sent⟩ : MyApp).txDelay
        = (MyApp.new.Setup true ps n rate).txDelay := fun _ _ _ _ => rfl
    simp only [hd, List.range_succ (k + 1), List.map_append, List.map_cons, List.map_nil,
      List.append_assoc]
    congr 2
    congr 2
    push_cast; ring

theorem PacedSim.stop_cancels (w : PacedSim) (e : SchedEvent)
    (hab : w.aborted = false) (hsock : w.app.socket = true)
    (hq : w.sched.pending = [e]) (hev : w.app.sendEvent = some e.uid) :
    w.step .stop =
      { sched := { w.sched with pending := [] },
        trace := w.trace ++ [(w.sched.now, .close)],
        aborted := false,
        app := { w.app with running := false } } := by
  obtain ⟨⟨now, uid, pend⟩, tr, ab, ⟨sock, ps, n, rate, ev, running, sent⟩⟩ := w
  simp only at hab hsock hq hev
  subst hab hsock hq hev
  simp [PacedSim.step, MyApp.StopApplication, Scheduler.isPending, Scheduler.cancel,
    PacedSim.call]

theorem PacedSim.advance_keeps (w : PacedSim) (t : ℚ) :
    (w.step (.advance t)).sched.pending = w.sched.pending ∧
    (w.step (.advance t)).sched.nextUid = w.sched.nextUid ∧
    (w.step (.advance t)).trace = w.trace ∧
    (w.step (.advance t)).aborted = w.aborted ∧
    (w.step (.advance t)).app = w.app := by
  simp only [PacedSim.step]
  split_ifs <;> simp

theorem PacedSim.idle_when_nothing_pending (later : List PacedEvent) :
    ∀ w : PacedSim, w.sched.pending = [] →
      (∀ ev ∈ later, ev = PacedEvent.fire ∨ ∃ t, ev = PacedEvent.advance t) →
      (w.steps later).sched.pending = [] ∧ (w.steps later).trace = w.trace ∧
      (w.steps later).app = w.app := by
  induction later with
  | nil => intro w hq _; exact ⟨hq, rfl, rfl⟩
  | cons ev later ih =>
    intro w hq hev
    have hstep : (w.step ev).sched.pending = [] ∧ (w.step ev).trace = w.trace ∧
        (w.step ev).app = w.app := by
      rcases hev ev (List.mem_cons_self _ _) with h | ⟨t, h⟩
      · subst h
        simp [PacedSim.step, PacedSim.fire, Scheduler.pop, Scheduler.earliest, hq]
      · subst h
        obtain ⟨h1, _, h3, _, h5⟩ := PacedSim.advance_keeps w t
        exact ⟨h1.trans hq, h3, h5⟩
    obtain ⟨g1, g2, g3⟩ := ih (w.step ev) hstep.1
      (fun x hx => hev x (List.mem_cons_of_mem _ hx))
    exact ⟨g1, g2.trans hstep.2.1, g3.trans hstep.2.2⟩

theorem Scheduler.cancel_not_pending (sch : Scheduler) (id : Nat) :
    (sch.cancel id).isPending id = false := by
  simp [Scheduler.cancel, Scheduler.isPending]

/-! ## The bulk sender: lemmas -/

theorem bulkSends_append (a b : List BulkCall) :
    bulkSends (a ++ b) = bulkSends a ++ bulkSends b := by
  simp [bulkSends, List.filterMap_append]

theorem BulkApp.sendLoop_done (w : BulkSim) (rets : List Int)
    (h : w.app.moreToSend = false) : BulkApp.sendLoop w rets = some (w, rets) := by
  cases rets <;> simp [BulkApp.sendLoop, h]

theorem BulkApp.core_sendOnce (w : BulkSim) (r : Int) :
    (BulkApp.sendOnce w r).core =
      ((if toInt32 r > 0 then (w.app.totBytes + (toInt32 r).toNat) % 2 ^ 64
        else w.app.totBytes),
       w.app.maxBytes, w.app.sendSize,
       bulkSends w.trace ++ [(w.app.toSend, toInt32 r)]) := by
  simp [BulkApp.sendOnce, BulkSim.core, BulkSim.call, bulkSends_append, bulkSends]

/-- Whatever holds of the counters and the sends before the loop and is kept
by one pass through its body holds after the loop. -/
theorem BulkApp.sendLoop_core (Q : Nat × Nat × Nat × List (Nat × Int) → Prop)
    (hiter : ∀ (w : BulkSim) (r : Int), Q w.core → w.app.moreToSend = true →
      Q (BulkApp.sendOnce w r).core) :
    ∀ (rets : List Int) (w w' : BulkSim) (rest : List Int),
      BulkApp.sendLoop w rets = some (w', rest) → Q w.core → Q w'.core := by
  intro rets
  induction rets with
  | nil =>
    intro w w' rest h hq
    simp only [BulkApp.sendLoop] at h
    split_ifs at h with h1 h2
    · simp only [Option.some.injEq, Prod.mk.injEq] at h
      rw [← h.1]; exact hq
    · simp only [Option.some.injEq, Prod.mk.injEq] at h
      rw [← h.1]; exact hq
  | cons r rs ih =>
    intro w w' rest h hq
    simp only [BulkApp.sendLoop] at h
    split_ifs at h with h1 h2 h3
    · simp only [Option.some.injEq, Prod.mk.injEq] at h
      rw [← h.1]; exact hq
    · simp only [Option.some.injEq, Prod.mk.injEq] at h
      rw [← h.1]; exact hiter w r hq h1
    · exact ih _ _ _ h (hiter w r hq h1)
    · simp only [Option.some.injEq, Prod.mk.injEq] at h
      rw [← h.1]; exact hq

theorem BulkApp.core_closeIfDone (t : ℚ) (w : BulkSim) :
    (BulkApp.closeIfDone t w).core = w.core := by
  simp only [BulkApp.closeIfDone]
  split_ifs <;> simp [BulkSim.core, BulkSim.call, bulkSends_append, bulkSends]

theorem BulkApp.SendData_core (Q : Nat × Nat × Nat × List (Nat × Int) → Prop)
    (hiter : ∀ (w : BulkSim) (r : Int), Q w.core → w.app.moreToSend = true →
      Q (BulkApp.sendOnce w r).core)
    (w w' : BulkSim) (rets rest : List Int)
    (h : BulkApp.SendData w rets = some (w', rest)) (hq : Q w.core) : Q w'.core := by
  simp only [BulkApp.SendData] at h
  split at h
  · exact absurd h (by simp)
  · rename_i w1 rest1 hloop
    simp only [Option.some.injEq, Prod.mk.injEq] at h
    rw [← h.1, BulkApp.core_closeIfDone]
    exact BulkApp.sendLoop_core Q hiter _ _ _ _ hloop hq

theorem BulkSim.step_core (Q : Nat × Nat × Nat × List (Nat × Int) → Prop)
    (hiter : ∀ (w : BulkSim) (r : Int), Q w.core → w.app.moreToSend = true →
      Q (BulkApp.sendOnce w r).core)
    (w w' : BulkSim) (ev : BulkEvent) (rets rest : List Int)
    (h : w.step ev rets = some (w', rest)) (hq : Q w.core) : Q w'.core := by
  by_cases hab : w.aborted = true
  · simp only [BulkSim.step, hab, if_true, Option.some.injEq, Prod.mk.injEq] at h
    rw [← h.1]; exact hq
  · have hopen : ∀ o : BulkSim, o.core = w.core → Q o.core := fun o ho => ho ▸ hq
    replace hab : w.aborted = false := by simpa using hab
    cases ev with
    | start =>
      simp only [BulkSim.step, hab, Bool.false_eq_true, if_false, BulkApp.StartApplication] at h
      split_ifs at h with h1 h2 h3 h4 h5 h6
      all_goals first
        | (simp only [Option.some.injEq, Prod.mk.injEq] at h
           rw [← h.1]
           apply hopen
           cases hp : w.app.peer <;>
             simp [BulkSim.core, BulkSim.call, bulkSends_append, bulkSends])
        | (refine BulkApp.SendData_core Q hiter _ _ _ _ h (hopen _ ?_)
           cases hp : w.app.peer <;>
             simp [BulkSim.core, BulkSim.call, bulkSends_append, bulkSends])
    | stop =>
      simp only [BulkSim.step, hab, Bool.false_eq_true, if_false, Option.some.injEq, Prod.mk.injEq] at h
      rw [← h.1]
      apply hopen
      simp only [BulkApp.StopApplication]
      split_ifs <;> simp [BulkSim.core, BulkSim.call, bulkSends_append, bulkSends]
    | connectSucceeded =>
      simp only [BulkSim.step, hab, Bool.false_eq_true, if_false, BulkApp.ConnectionSucceeded] at h
      split_ifs at h
      · exact BulkApp.SendData_core Q hiter _ _ _ _ h (hopen _ rfl)
      · simp only [Option.some.injEq, Prod.mk.injEq] at h
        rw [← h.1]; exact hq
    | connectFailed =>
      simp only [BulkSim.step, hab, Bool.false_eq_true, if_false, BulkApp.ConnectionFailed, ite_self,
        Option.some.injEq, Prod.mk.injEq] at h
      rw [← h.1]; exact hq
    | dataSend =>
      simp only [BulkSim.step, hab, Bool.false_eq_true, if_false, BulkApp.DataSend] at h
      split_ifs at h
      · exact BulkApp.SendData_core Q hiter _ _ _ _ h hq
      all_goals
        simp only [Option.some.injEq, Prod.mk.injEq] at h
        rw [← h.1]; exact hq
    | advance t =>
      simp only [BulkSim.step, hab, Bool.false_eq_true, if_false, Option.some.injEq, Prod.mk.injEq] at h
      rw [← h.1]
      apply hopen
      split_ifs <;> rfl

theorem BulkSim.steps_core (Q : Nat × Nat × Nat × List (Nat × Int) → Prop)
    (hiter : ∀ (w : BulkSim) (r : Int), Q w.core → w.app.moreToSend = true →
      Q (BulkApp.sendOnce w r).core) :
    ∀ (evs : List BulkEvent) (w w' : BulkSim) (rets rest : List Int),
      w.steps evs rets = some (w', rest) → Q w.core → Q w'.core := by
  intro evs
  induction evs with
  | nil =>
    intro w w' rets rest h hq
    simp only [BulkSim.steps, Option.some.injEq, Prod.mk.injEq] at h
    rw [← h.1]; exact hq
  | cons ev evs ih =>
    intro w w' rets rest h hq
    simp only [BulkSim.steps] at h
    split at h
    · exact absurd h (by simp)
    · rename_i w1 rest1 hstep
      exact ih _ _ _ _ h (BulkSim.step_core Q hiter _ _ _ _ _ hstep hq)

theorem acceptedSum_append (a b : List (Nat × Int)) :
    acceptedSum (a ++ b) = acceptedSum a + acceptedSum b := by
  simp [acceptedSum, List.map_append, List.sum_append]

/-- The sends of a simulation are never taken back: after any step the sends
made before are a prefix of the sends made so far. -/
theorem BulkSim.step_sends_grow (w w' : BulkSim) (ev : BulkEvent) (rets rest : List Int)
    (h : w.step ev rets = some (w', rest)) :
    ∃ l, bulkSends w'.trace = bulkSends w.trace ++ l := by
  have := BulkSim.step_core (fun c => ∃ l, c.2.2.2 = bulkSends w.trace ++ l)
    (by
      intro v r ⟨l, hl⟩ _
      refine ⟨l ++ [(v.app.toSend, toInt32 r)], ?_⟩
      rw [BulkApp.core_sendOnce]
      simp only [BulkSim.core] at hl
      simp only [hl, List.append_assoc])
    w w' ev rets rest h ⟨[], by simp [BulkSim.core]⟩
  simpa [BulkSim.core] using this

/-- The invariant behind C8: `m_totBytes` is the total of the positive results
of the sends, modulo `2 ^ 64`. -/
theorem BulkSim.totBytes_eq_acceptedSum (evs : List BulkEvent) (w0 w : BulkSim)
    (rets rest : List Int) (h : w0.steps evs rets = some (w, rest))
    (h0 : w0.app.totBytes = acceptedSum (bulkSends w0.trace) % 2 ^ 64) :
    w.app.totBytes = acceptedSum (bulkSends w.trace) % 2 ^ 64 := by
  have := BulkSim.steps_core (fun c => c.1 = acceptedSum c.2.2.2 % 2 ^ 64)
    (by
      intro v r hv _
      rw [BulkApp.core_sendOnce]
      simp only [BulkSim.core] at hv
      simp only [acceptedSum_append, hv]
      by_cases hr : toInt32 r > 0
      · simp [acceptedSum, hr, Nat.add_mod]
      · simp [acceptedSum, hr])
    evs w0 w rets rest h (by simpa [BulkSim.core] using h0)
  simpa [BulkSim.core] using this

theorem toInt32_of_int (z : Int) (h0 : -(2 ^ 31) ≤ z) (h1 : z < 2 ^ 31) : toInt32 z = z := by
  unfold toInt32
  omega

theorem toUnsigned_of_nonneg (z : Int) (h0 : 0 ≤ z) (h1 : z < 2 ^ 31) :
    toUnsigned z = z.toNat := by
  unfold toUnsigned
  congr 1
  omega

theorem BulkSim.steps_of_aborted (evs : List BulkEvent) (w : BulkSim) (rets : List Int)
    (h : w.aborted = true) : w.steps evs rets = some (w, rets) := by
  induction evs with
  | nil => rfl
  | cons ev evs ih => simp [BulkSim.steps, BulkSim.step, h, ih]

theorem BulkSim.start_without_socket (w : BulkSim) (rets : List Int)
    (hsock : w.app.socket = none) (hab : w.aborted = false)
    (hconn : w.app.connected = false) :
    w.step .start rets =
      some (if w.app.tid ≠ SocketType.stream ∧ w.app.tid ≠ SocketType.seqpacket then
              { w with aborted := true, app := { w.app with socket := some w.app.tid } }
            else
              { w with
                trace := w.trace ++
                  (match w.app.peer with
                    | .inet6 => [BulkCall.bind6]
                    | .inet => [BulkCall.bind]
                    | .other => []) ++
                  [.connect, .shutdownRecv, .setConnectCallback, .setSendCallback],
                app := { w.app with socket := some w.app.tid } }, rets) := by
  obtain ⟨now, tr, lg, ab, ⟨sock, conn, tot, ss, mb, tid, peer⟩⟩ := w
  simp only at hsock hab hconn
  subst hsock hab hconn
  cases tid <;> cases peer <;>
    simp [BulkSim.step, BulkApp.StartApplication, BulkSim.call]

theorem BulkApp.sendLoop_all_accepted (q : Nat) :
    ∀ (w : BulkSim) (rem : Nat) (rest : List Int),
      w.app.socket.isSome = true → 0 < w.app.maxBytes → w.app.maxBytes < 2 ^ 64 →
      1 ≤ w.app.sendSize → rem < w.app.sendSize →
      w.app.totBytes + q * w.app.sendSize + rem = w.app.maxBytes →
      (q ≠ 0 → w.app.sendSize < 2 ^ 31) → rem < 2 ^ 31 →
      BulkApp.sendLoop w
          ((List.replicate q w.app.sendSize ++ (if rem = 0 then [] else [rem])).map
            Int.ofNat ++ rest)
        = some ({ w with
                  trace := w.trace ++
                    (List.replicate q w.app.sendSize ++ (if rem = 0 then [] else [rem])).map
                      (fun n => BulkCall.send n n),
                  app := { w.app with totBytes := w.app.maxBytes } }, rest) := by
  induction q with
  | zero =>
    intro w rem rest hsock hmb hmb64 hss hrem htot _ hrem31
    obtain ⟨now, tr, lg, ab, ⟨sock, conn, tot, ss, mb, tid, peer⟩⟩ := w
    simp only at hsock hmb hmb64 hss hrem htot hrem31
    have hnone : sock.isNone = false := by cases sock <;> simp_all
    by_cases h0 : rem = 0
    · subst h0
      have : tot = mb := by omega
      subst this
      have hdone : BulkApp.moreToSend
          ⟨sock, conn, tot, ss, tot, tid, peer⟩ = false := by
        simp [BulkApp.moreToSend]; omega
      simp [BulkApp.sendLoop_done ⟨now, tr, lg, ab, ⟨sock, conn, tot, ss, tot, tid, peer⟩⟩ _ hdone]
    · have hmore : BulkApp.moreToSend ⟨sock, conn, tot, ss, mb, tid, peer⟩ = true := by
        simp [BulkApp.moreToSend]; omega
      have hts : BulkApp.toSend ⟨sock, conn, tot, ss, mb, tid, peer⟩ = rem := by
        simp only [BulkApp.toSend, hmb, if_true]
        omega
      have h32 : toInt32 (rem : Int) = rem := toInt32_of_int _ (by omega) (by omega)
      have hu : toUnsigned (rem : Int) = rem := by
        rw [toUnsigned_of_nonneg _ (by omega) (by omega)]; simp
      have hpos : (rem : Int) > 0 := by omega
      have hmod : (tot + rem) % 2 ^ 64 = mb := by
        rw [Nat.mod_eq_of_lt (by omega)]; omega
      have hdone : BulkApp.moreToSend ⟨sock, conn, mb, ss, mb, tid, peer⟩ = false := by
        simp [BulkApp.moreToSend]; omega
      simp only [h0, if_false, List.replicate_zero, List.nil_append, List.map_cons,
        List.map_nil, List.singleton_append, BulkApp.sendLoop, hmore, hnone,
        BulkApp.leavesLoop, hts, h32, hu, BulkApp.sendOnce, BulkSim.call, hpos,
        Int.ofNat_eq_coe, Int.toNat_ofNat, hmod, if_true, bne_self_eq_false,
        Bool.false_eq_true, List.append_eq]
      rw [BulkApp.sendLoop_done
        ⟨now, tr ++ [BulkCall.send rem (rem : Int)], lg, ab,
          ⟨sock, conn, mb, ss, mb, tid, peer⟩⟩ _ hdone]
  | succ q ih =>
    intro w rem rest hsock hmb hmb64 hss hrem htot hq31 hrem31
    obtain ⟨now, tr, lg, ab, ⟨sock, conn, tot, ss, mb, tid, peer⟩⟩ := w
    simp only at hsock hmb hmb64 hss hrem htot hrem31 hq31
    have hss31 : ss < 2 ^ 31 := hq31 (by omega)
    have hnone : sock.isNone = false := by cases sock <;> simp_all
    have hge : tot + ss ≤ mb := by
      have : (q + 1) * ss = q * ss + ss := by ring
      omega
    have hmore : BulkApp.moreToSend ⟨sock, conn, tot, ss, mb, tid, peer⟩ = true := by
      simp [BulkApp.moreToSend]; omega
    have hts : BulkApp.toSend ⟨sock, conn, tot, ss, mb, tid, peer⟩ = ss := by
      simp only [BulkApp.toSend, hmb, if_true]
      omega
    have h32 : toInt32 (ss : Int) = ss := toInt32_of_int _ (by omega) (by omega)
    have hu : toUnsigned (ss : Int) = ss := by
      rw [toUnsigned_of_nonneg _ (by omega) (by omega)]; simp
    have hpos : (ss : Int) > 0 := by omega
    have hmod : (tot + ss) % 2 ^ 64 = tot + ss := Nat.mod_eq_of_lt (by omega)
    have hnext := ih
      ⟨now, tr ++ [BulkCall.send ss (ss : Int)], lg, ab,
        ⟨sock, conn, tot + ss, ss, mb, tid, peer⟩⟩ rem rest
      hsock hmb hmb64 hss hrem
      (by
        have : (q + 1) * ss = q * ss + ss := by ring
        simp only; omega)
      (fun _ => hss31) hrem31
    simp only [List.replicate_succ, List.cons_append, List.map_cons, BulkApp.sendLoop, hmore,
      hnone, BulkApp.leavesLoop, hts, h32, hu, BulkApp.sendOnce, BulkSim.call, hpos,
      Int.ofNat_eq_coe, Int.toNat_ofNat, hmod, if_true, bne_self_eq_false,
      Bool.false_eq_true, if_false]
    simp only [Int.ofNat_eq_coe, List.append_eq] at hnext ⊢
    rw [hnext]
    simp

/-- Whatever holds before the loop of `SendData`, survives the death of the
process and is kept by one pass through the body of the loop holds after the
loop. -/
theorem BulkApp.sendLoop_ind (P : BulkSim → Prop)
    (hdead : ∀ w : BulkSim, P w → P { w with aborted := true })
    (hiter : ∀ (w : BulkSim) (r : Int), P w → w.app.moreToSend = true →
      P (BulkApp.sendOnce w r)) :
    ∀ (rets : List Int) (w w' : BulkSim) (rest : List Int),
      BulkApp.sendLoop w rets = some (w', rest) → P w → P w' := by
  intro rets
  induction rets with
  | nil =>
    intro w w' rest h hq
    simp only [BulkApp.sendLoop] at h
    split_ifs at h with h1 h2
    · simp only [Option.some.injEq, Prod.mk.injEq] at h
      rw [← h.1]; exact hdead w hq
    · simp only [Option.some.injEq, Prod.mk.injEq] at h
      rw [← h.1]; exact hq
  | cons r rs ih =>
    intro w w' rest h hq
    simp only [BulkApp.sendLoop] at h
    split_ifs at h with h1 h2 h3
    · simp only [Option.some.injEq, Prod.mk.injEq] at h
      rw [← h.1]; exact hdead w hq
    · simp only [Option.some.injEq, Prod.mk.injEq] at h
      rw [← h.1]; exact hiter w r hq h1
    · exact ih _ _ _ h (hiter w r hq h1)
    · simp only [Option.some.injEq, Prod.mk.injEq] at h
      rw [← h.1]; exact hq

/-- The send loop never touches `m_socket` itself. -/
theorem BulkApp.SendData_socket (w w' : BulkSim) (rets rest : List Int)
    (h : BulkApp.SendData w rets = some (w', rest)) : w'.app.socket = w.app.socket := by
  simp only [BulkApp.SendData] at h
  split at h
  · exact absurd h (by simp)
  · rename_i w1 rest1 hloop
    simp only [Option.some.injEq, Prod.mk.injEq] at h
    have h1 : w1.app.socket = w.app.socket :=
      BulkApp.sendLoop_ind (fun v => v.app.socket = w.app.socket)
        (fun _ hv => hv) (fun _ _ hv _ => by simpa [BulkApp.sendOnce, BulkSim.call] using hv)
        _ _ _ _ hloop rfl
    rw [← h.1, ← h1]
    simp only [BulkApp.closeIfDone]
    split_ifs <;> simp [BulkSim.call]

/-- A simulation whose sender has no socket after a step had none before it,
and the step has left the sender as it was. -/
theorem BulkSim.step_without_socket (w w' : BulkSim) (ev : BulkEvent) (rets rest : List Int)
    (h : w.step ev rets = some (w', rest)) (hnone : w'.app.socket = none) :
    w'.app = w.app ∧ w'.aborted = w.aborted := by
  by_cases hab : w.aborted = true
  · simp only [BulkSim.step, hab, if_true, Option.some.injEq, Prod.mk.injEq] at h
    rw [← h.1]
    exact ⟨rfl, rfl⟩
  · replace hab : w.aborted = false := by simpa using hab
    cases hs : w.app.socket with
    | none =>
      cases ev with
      | start =>
        exfalso
        simp only [BulkSim.step, hab, Bool.false_eq_true, if_false,
          BulkApp.StartApplication, hs, Option.isNone_none, if_true] at h
        split_ifs at h with h1 h2 h3
        all_goals first
          | (simp only [Option.some.injEq, Prod.mk.injEq] at h
             rw [← h.1] at hnone
             revert hnone
             cases w.app.peer <;> simp [BulkSim.call])
          | (have hkept :=
               BulkApp.SendData_socket _ _ _ _ h
             rw [hnone] at hkept
             revert hkept
             cases w.app.peer <;> simp [BulkSim.call])
      | stop =>
        simp only [BulkSim.step, hab, Bool.false_eq_true, if_false, BulkApp.StopApplication,
          hs, Option.isSome_none, Option.some.injEq, Prod.mk.injEq] at h
        rw [← h.1]
        exact ⟨rfl, by simp [hab]⟩
      | connectSucceeded =>
        simp only [BulkSim.step, hab, Bool.false_eq_true, if_false, hs, Option.isSome_none,
          Option.some.injEq, Prod.mk.injEq] at h
        rw [← h.1]
        exact ⟨rfl, by simp [hab]⟩
      | connectFailed =>
        simp only [BulkSim.step, hab, Bool.false_eq_true, if_false, hs, Option.isSome_none,
          Option.some.injEq, Prod.mk.injEq] at h
        rw [← h.1]
        exact ⟨rfl, by simp [hab]⟩
      | dataSend =>
        simp only [BulkSim.step, hab, Bool.false_eq_true, if_false, hs, Option.isSome_none,
          Option.some.injEq, Prod.mk.injEq] at h
        rw [← h.1]
        exact ⟨rfl, by simp [hab]⟩
      | advance t =>
        simp only [BulkSim.step, hab, Bool.false_eq_true, if_false, Option.some.injEq,
          Prod.mk.injEq] at h
        rw [← h.1]
        split_ifs <;> exact ⟨rfl, by simp [hab]⟩
    | some ty =>
      exfalso
      have hkeep : w'.app.socket = some ty := by
        cases ev with
        | start =>
          simp only [BulkSim.step, hab, Bool.false_eq_true, if_false,
            BulkApp.StartApplication, hs, Option.isNone_some] at h
          split_ifs at h with h1
          · rw [BulkApp.SendData_socket _ _ _ _ h, hs]
          · simp only [Option.some.injEq, Prod.mk.injEq] at h
            rw [← h.1, hs]
        | stop =>
          simp only [BulkSim.step, hab, Bool.false_eq_true, if_false,
            BulkApp.StopApplication, hs, Option.isSome_some, if_true, Option.some.injEq,
            Prod.mk.injEq] at h
          rw [← h.1]
          simpa [BulkSim.call] using hs
        | connectSucceeded =>
          simp only [BulkSim.step, hab, Bool.false_eq_true, if_false, hs,
            Option.isSome_some, if_true, BulkApp.ConnectionSucceeded] at h
          rw [BulkApp.SendData_socket _ _ _ _ h]
        | connectFailed =>
          simp only [BulkSim.step, hab, Bool.false_eq_true, if_false, hs,
            Option.isSome_some, if_true, BulkApp.ConnectionFailed, Option.some.injEq,
            Prod.mk.injEq] at h
          rw [← h.1, hs]
        | dataSend =>
          simp only [BulkSim.step, hab, Bool.false_eq_true, if_false, hs,
            Option.isSome_some, if_true, BulkApp.DataSend] at h
          split_ifs at h with h1
          · rw [BulkApp.SendData_socket _ _ _ _ h, hs]
          · simp only [Option.some.injEq, Prod.mk.injEq] at h
            rw [← h.1, hs]
        | advance t =>
          simp only [BulkSim.step, hab, Bool.false_eq_true, if_false, Option.some.injEq,
            Prod.mk.injEq] at h
          rw [← h.1]
          split_ifs <;> exact hs
      rw [hnone] at hkeep
      exact absurd hkeep (by simp)

/-- A sender that has no socket is not connected, and its process is alive, in
every state the simulation reaches from construction. -/
theorem BulkSim.idle_without_socket (evs : List BulkEvent) :
    ∀ (w0 w : BulkSim) (rets rest : List Int),
      w0.steps evs rets = some (w, rest) →
      (w0.app.socket = none → w0.app.connected = false ∧ w0.aborted = false) →
      w.app.socket = none → w.app.connected = false ∧ w.aborted = false := by
  induction evs with
  | nil =>
    intro w0 w rets rest h h0 hnone
    simp only [BulkSim.steps, Option.some.injEq, Prod.mk.injEq] at h
    rw [← h.1] at hnone ⊢
    exact h0 hnone
  | cons ev evs ih =>
    intro w0 w rets rest h h0 hnone
    simp only [BulkSim.steps] at h
    split at h
    · exact absurd h (by simp)
    · rename_i w1 rest1 hstep
      refine ih w1 w rest1 rest h ?_ hnone
      intro h1
      obtain ⟨ha, hb⟩ := BulkSim.step_without_socket w0 w1 ev rets rest1 hstep h1
      rw [ha] at h1
      rw [ha, hb]
      exact h0 h1

/-- A step other than connect-succeeded leaves a sender that is not connected
unconnected, and calls `Socket::Send` not at all. -/
theorem BulkSim.step_unconnected (v : BulkSim) (ev : BulkEvent) (rets : List Int)
    (hconn : v.app.connected = false) (hev : ev ≠ BulkEvent.connectSucceeded) :
    ∃ v1, v.step ev rets = some (v1, rets) ∧ v1.app.connected = false ∧
      bulkSends v1.trace = bulkSends v.trace := by
  by_cases hab : v.aborted = true
  · exact ⟨v, by simp [BulkSim.step, hab], hconn, rfl⟩
  · replace hab : v.aborted = false := by simpa using hab
    cases ev with
    | start =>
      cases hs : v.app.socket with
      | none =>
        refine ⟨_, BulkSim.start_without_socket v rets hs hab hconn, ?_, ?_⟩
        · split_ifs <;> exact hconn
        · split_ifs
          · rfl
          · cases v.app.peer <;> simp [bulkSends_append, bulkSends]
      | some ty =>
        exact ⟨v, by simp [BulkSim.step, BulkApp.StartApplication, hab, hs, hconn], hconn, rfl⟩
    | stop =>
      refine ⟨BulkApp.StopApplication v, by simp [BulkSim.step, hab], ?_, ?_⟩
      · simp only [BulkApp.StopApplication]
        split_ifs
        · rfl
        · exact hconn
      · simp only [BulkApp.StopApplication]
        split_ifs <;> simp [BulkSim.call, bulkSends_append, bulkSends]
    | connectSucceeded => exact absurd rfl hev
    | connectFailed =>
      exact ⟨v, by simp [BulkSim.step, hab, BulkApp.ConnectionFailed], hconn, rfl⟩
    | dataSend =>
      exact ⟨v, by simp [BulkSim.step, hab, BulkApp.DataSend, hconn], hconn, rfl⟩
    | advance t =>
      refine ⟨if v.now ≤ t then { v with now := t } else v,
        by simp only [BulkSim.step, hab, Bool.false_eq_true, if_false], ?_, ?_⟩
      · split_ifs <;> exact hconn
      · split_ifs <;> rfl

theorem BulkSim.steps_unconnected (evs : List BulkEvent) :
    ∀ (v : BulkSim) (rets : List Int), v.app.connected = false →
      (∀ ev ∈ evs, ev ≠ BulkEvent.connectSucceeded) →
      ∃ v', v.steps evs rets = some (v', rets) ∧ v'.app.connected = false ∧
        bulkSends v'.trace = bulkSends v.trace := by
  induction evs with
  | nil => intro v rets hc _; exact ⟨v, rfl, hc, rfl⟩
  | cons ev evs ih =>
    intro v rets hc hev
    obtain ⟨v1, h1, h2, h3⟩ := BulkSim.step_unconnected v ev rets hc
      (hev ev (List.mem_cons_self _ _))
    obtain ⟨v', h4, h5, h6⟩ := ih v1 rets h2 (fun x hx => hev x (List.mem_cons_of_mem _ hx))
    exact ⟨v', by simp only [BulkSim.steps, h1, h4], h5, h6.trans h3⟩

/-- The invariant behind C18, kept by every step that does not start the
application while an event is pending: nothing is pending, or the one pending
event is the one held in `m_sendEvent`, `running` is true and packets remain. -/
theorem PacedSim.step_one_pending (w : PacedSim) (ev : PacedEvent)
    (hn : w.app.nPackets < 2 ^ 32)
    (hinv : w.sched.pending = [] ∨
      ∃ e, w.sched.pending = [e] ∧ w.app.running = true ∧
        w.app.packetsSent < w.app.nPackets ∧ w.app.sendEvent = some e.uid)
    (hstart : ev = PacedEvent.start → w.sched.pending = []) :
    (w.step ev).app.nPackets = w.app.nPackets ∧
    ((w.step ev).sched.pending = [] ∨
      ∃ e, (w.step ev).sched.pending = [e] ∧ (w.step ev).app.running = true ∧
        (w.step ev).app.packetsSent < (w.step ev).app.nPackets ∧
        (w.step ev).app.sendEvent = some e.uid) := by
  by_cases hab : w.aborted = true
  · have hs : w.step ev = w := by simp [PacedSim.step, hab]
    rw [hs]
    exact ⟨rfl, hinv⟩
  · replace hab : w.aborted = false := by simpa using hab
    obtain ⟨⟨now, uid, pend⟩, tr, ab, ⟨sock, ps, n, rate, sev, running, sent⟩⟩ := w
    simp only at hab hn hinv hstart
    subst hab
    cases ev with
    | start =>
      have hq := hstart rfl
      subst hq
      cases sock
      · simp [PacedSim.step, MyApp.StartApplication]
      · by_cases h1 : 1 < n
        · refine ⟨?_, Or.inr ⟨⟨uid, now + MyApp.txDelay ⟨true, ps, n, rate, sev, true, 1⟩⟩, ?_⟩⟩ <;>
            simp [PacedSim.step, MyApp.StartApplication, MyApp.SendPacket, PacedSim.call,
              MyApp.ScheduleTx, Scheduler.schedule, MyApp.txDelay, h1]
        · simp [PacedSim.step, MyApp.StartApplication, MyApp.SendPacket, PacedSim.call,
            MyApp.ScheduleTx, h1]
    | stop =>
      refine ⟨?_, Or.inl ?_⟩
      · cases sev with
        | none => cases sock <;> simp [PacedSim.step, MyApp.StopApplication, PacedSim.call]
        | some id =>
          by_cases hp : Scheduler.isPending ⟨now, uid, pend⟩ id = true <;>
            cases sock <;>
              simp [PacedSim.step, MyApp.StopApplication, PacedSim.call, hp]
      · rcases hinv with hq | ⟨e, hq, _, _, hev⟩
        · subst hq
          cases sev <;> cases sock <;>
            simp [PacedSim.step, MyApp.StopApplication, PacedSim.call, Scheduler.isPending]
        · subst hq hev
          cases sock <;>
            simp [PacedSim.step, MyApp.StopApplication, PacedSim.call, Scheduler.isPending,
              Scheduler.cancel]
    | fire =>
      rcases hinv with hq | ⟨e, hq, hrun, hlt, _⟩
      · subst hq
        simp [PacedSim.step, PacedSim.fire, Scheduler.pop, Scheduler.earliest]
      · subst hq hrun
        have hmod : (sent + 1) % 4294967296 = sent + 1 := Nat.mod_eq_of_lt (by omega)
        cases sock
        · simp [PacedSim.step, PacedSim.fire, Scheduler.pop, Scheduler.earliest,
            MyApp.SendPacket]
        · by_cases h1 : sent + 1 < n
          · refine ⟨?_, Or.inr ⟨⟨uid, e.time +
                MyApp.txDelay ⟨true, ps, n, rate, sev, true, sent⟩⟩, ?_⟩⟩ <;>
              simp [PacedSim.step, PacedSim.fire, Scheduler.pop, Scheduler.earliest,
                MyApp.SendPacket, PacedSim.call, MyApp.ScheduleTx, Scheduler.schedule,
                MyApp.txDelay, hmod, h1]
          · simp [PacedSim.step, PacedSim.fire, Scheduler.pop, Scheduler.earliest,
              MyApp.SendPacket, PacedSim.call, MyApp.ScheduleTx, hmod, h1]
    | advance t =>
      obtain ⟨h1, _, _, _, h5⟩ := PacedSim.advance_keeps
        ⟨⟨now, uid, pend⟩, tr, false, ⟨sock, ps, n, rate, sev, running, sent⟩⟩ t
      rw [h1, h5]
      exact ⟨rfl, hinv⟩

theorem PacedSim.steps_one_pending (evs : List PacedEvent) :
    ∀ w : PacedSim, w.app.nPackets < 2 ^ 32 →
      (w.sched.pending = [] ∨
        ∃ e, w.sched.pending = [e] ∧ w.app.running = true ∧
          w.app.packetsSent < w.app.nPackets ∧ w.app.sendEvent = some e.uid) →
      PacedSim.startsWhenIdle w evs = true →
      (w.steps evs).sched.pending = [] ∨
        ∃ e, (w.steps evs).sched.pending = [e] ∧ (w.steps evs).app.running = true ∧
          (w.steps evs).app.packetsSent < (w.steps evs).app.nPackets ∧
          (w.steps evs).app.sendEvent = some e.uid := by
  induction evs with
  | nil => intro w _ hinv _; exact hinv
  | cons ev evs ih =>
    intro w hn hinv hidle
    simp only [PacedSim.startsWhenIdle, Bool.and_eq_true] at hidle
    have hstart : ev = PacedEvent.start → w.sched.pending = [] := by
      intro h
      subst h
      simpa using hidle.1
    obtain ⟨h1, h2⟩ := PacedSim.step_one_pending w ev hn hinv hstart
    have := ih (w.step ev) (by rw [h1]; exact hn) h2 hidle.2
    simpa [PacedSim.steps] using this

theorem toInt32_range (z : Int) : -(2 ^ 31) ≤ toInt32 z ∧ toInt32 z < 2 ^ 31 := by
  unfold toInt32
  omega

theorem toInt32_of_unsigned (z : Int) (k : Nat) (hk : k < 2 ^ 31)
    (h : toUnsigned (toInt32 z) = k) : toInt32 z = (k : Int) := by
  have hr := toInt32_range z
  unfold toUnsigned at h
  omega

theorem toUnsigned_of_eq (z : Int) (k : Nat) (h : toInt32 z = (k : Int)) :
    toUnsigned (toInt32 z) = k := by
  have hr := toInt32_range z
  unfold toUnsigned
  omega

/-- The number of sends the send loop can still make drops with every send
that is accepted in full. -/
theorem sends_left_drop (ss rem : Nat) (hss : 0 < ss) (hrem : 0 < rem) :
    (rem - min ss rem + ss - 1) / ss + 1 ≤ (rem + ss - 1) / ss := by
  by_cases h : ss ≤ rem
  · have h1 : min ss rem = ss := Nat.min_eq_left h
    have h2 : rem + ss - 1 = (rem - ss + ss - 1) + ss := by omega
    rw [h1, h2, Nat.add_div_right _ hss]
  · have h1 : min ss rem = rem := Nat.min_eq_right (by omega)
    have h2 : (rem - rem + ss - 1) / ss = 0 := Nat.div_eq_of_lt (by omega)
    have h3 : 0 < (rem + ss - 1) / ss := Nat.div_pos (by omega) hss
    rw [h1, h2]
    omega

/-- The loop of `SendData` of a bounded sender with `sendSize < 2 ^ 31` ends
after at most `ceil ((maxBytes - totBytes) / sendSize)` sends, whatever the
sends return. -/
theorem BulkApp.sendLoop_bounded (rets : List Int) :
    ∀ w : BulkSim, 0 < w.app.maxBytes → w.app.maxBytes < 2 ^ 64 →
      1 ≤ w.app.sendSize → w.app.sendSize < 2 ^ 31 → w.app.totBytes ≤ w.app.maxBytes →
      (w.app.maxBytes - w.app.totBytes + w.app.sendSize - 1) / w.app.sendSize ≤ rets.length →
      ∃ w' rest, BulkApp.sendLoop w rets = some (w', rest) ∧
        (bulkSends w'.trace).length ≤ (bulkSends w.trace).length +
          (w.app.maxBytes - w.app.totBytes + w.app.sendSize - 1) / w.app.sendSize := by
  induction rets with
  | nil =>
    intro w hmb _ hss _ htot hlen
    by_cases hmore : w.app.moreToSend = true
    · exfalso
      have hlt : w.app.totBytes < w.app.maxBytes := by
        simp only [BulkApp.moreToSend, Bool.or_eq_true, beq_iff_eq, decide_eq_true_eq] at hmore
        omega
      have : 0 < (w.app.maxBytes - w.app.totBytes + w.app.sendSize - 1) / w.app.sendSize :=
        Nat.div_pos (by omega) (by omega)
      simp only [List.length_nil] at hlen
      omega
    · replace hmore : w.app.moreToSend = false := by simpa using hmore
      exact ⟨w, [], BulkApp.sendLoop_done w [] hmore, Nat.le_add_right _ _⟩
  | cons r rs ih =>
    intro w hmb hmb64 hss hss31 htot hlen
    by_cases hmore : w.app.moreToSend = true
    · have hlt : w.app.totBytes < w.app.maxBytes := by
        simp only [BulkApp.moreToSend, Bool.or_eq_true, beq_iff_eq, decide_eq_true_eq] at hmore
        omega
      have hpos : 0 < (w.app.maxBytes - w.app.totBytes + w.app.sendSize - 1) / w.app.sendSize :=
        Nat.div_pos (by omega) (by omega)
      by_cases hnone : w.app.socket.isNone = true
      · exact ⟨{ w with aborted := true }, r :: rs,
          by simp [BulkApp.sendLoop, hmore, hnone], Nat.le_add_right _ _⟩
      · replace hnone : w.app.socket.isNone = false := by
          cases hs : w.app.socket <;> simp_all
        by_cases hleave : BulkApp.leavesLoop w r = true
        · refine ⟨BulkApp.sendOnce w r, rs,
            by simp [BulkApp.sendLoop, hmore, hnone, hleave], ?_⟩
          have hc := BulkApp.core_sendOnce w r
          simp only [BulkSim.core, Prod.mk.injEq] at hc
          rw [hc.2.2.2, List.length_append, List.length_singleton]
          omega
        · replace hleave : BulkApp.leavesLoop w r = false := by simpa using hleave
          have hts : w.app.toSend = min w.app.sendSize (w.app.maxBytes - w.app.totBytes) := by
            simp only [BulkApp.toSend, hmb, if_true]
          have hts31 : w.app.toSend < 2 ^ 31 := by
            rw [hts]; exact lt_of_le_of_lt (Nat.min_le_left _ _) hss31
          have hu : toUnsigned (toInt32 r) = w.app.toSend := by
            simpa [BulkApp.leavesLoop] using hleave
          have hact : toInt32 r = (w.app.toSend : Int) :=
            toInt32_of_unsigned r _ hts31 hu
          have htspos : 0 < w.app.toSend := by
            rw [hts]; exact Nat.lt_min.mpr ⟨by omega, by omega⟩
          have htsle : w.app.toSend ≤ w.app.maxBytes - w.app.totBytes := by
            rw [hts]; exact Nat.min_le_right _ _
          have hc := BulkApp.core_sendOnce w r
          simp only [BulkSim.core, Prod.mk.injEq, hact] at hc
          obtain ⟨hc1, hc2, hc3, hc4⟩ := hc
          have hgt : ((w.app.toSend : Int) > 0) := by omega
          simp only [hgt, if_true, Int.toNat_ofNat] at hc1
          rw [Nat.mod_eq_of_lt (by omega)] at hc1
          have hdrop := sends_left_drop w.app.sendSize (w.app.maxBytes - w.app.totBytes)
            (by omega) (by omega)
          rw [← hts] at hdrop
          have hrem' : (BulkApp.sendOnce w r).app.maxBytes - (BulkApp.sendOnce w r).app.totBytes
              = w.app.maxBytes - w.app.totBytes - w.app.toSend := by
            rw [hc1, hc2]; omega
          obtain ⟨w', rest, h1, h2⟩ := ih (BulkApp.sendOnce w r)
            (by rw [hc2]; exact hmb) (by rw [hc2]; exact hmb64) (by rw [hc3]; exact hss)
            (by rw [hc3]; exact hss31) (by rw [hc1, hc2]; omega)
            (by
              rw [hrem', hc3]
              simp only [List.length_cons] at hlen
              omega)
          refine ⟨w', rest, by simp [BulkApp.sendLoop, hmore, hnone, hleave, h1], ?_⟩
          rw [hrem', hc3, hc4, List.length_append, List.length_singleton] at h2
          omega
    · replace hmore : w.app.moreToSend = false := by simpa using hmore
      exact ⟨w, r :: rs, BulkApp.sendLoop_done w _ hmore, Nat.le_add_right _ _⟩

/-- When the loop of `SendData` ends with work remaining, it has made a send,
and the last send returned something else than the size it asked for. -/
theorem BulkApp.sendLoop_left_by_short_send (rets : List Int) :
    ∀ (w w' : BulkSim) (rest : List Int), w.app.socket.isSome = true →
      BulkApp.sendLoop w rets = some (w', rest) → w'.app.moreToSend = true →
      ∃ (pre : List (Nat × Int)) (req : Nat) (ret : Int),
        bulkSends w'.trace = bulkSends w.trace ++ pre ++ [(req, ret)] ∧ ret ≠ (req : Int) := by
  induction rets with
  | nil =>
    intro w w' rest hsock h hwork
    have hnone : w.app.socket.isNone = false := by
      cases hs : w.app.socket <;> simp_all
    exfalso
    by_cases hmore : w.app.moreToSend = true
    · simp [BulkApp.sendLoop, hmore, hnone] at h
    · replace hmore : w.app.moreToSend = false := by simpa using hmore
      simp only [BulkApp.sendLoop_done w [] hmore, Option.some.injEq, Prod.mk.injEq] at h
      rw [← h.1, hmore] at hwork
      exact absurd hwork (by simp)
  | cons r rs ih =>
    intro w w' rest hsock h hwork
    have hnone : w.app.socket.isNone = false := by
      cases hs : w.app.socket <;> simp_all
    by_cases hmore : w.app.moreToSend = true
    · have hc := BulkApp.core_sendOnce w r
      simp only [BulkSim.core, Prod.mk.injEq] at hc
      by_cases hleave : BulkApp.leavesLoop w r = true
      · simp only [BulkApp.sendLoop, hmore, hnone, hleave, if_true, Bool.false_eq_true,
          if_false, Option.some.injEq, Prod.mk.injEq] at h
        refine ⟨[], w.app.toSend, toInt32 r, ?_, ?_⟩
        · rw [← h.1, hc.2.2.2, List.append_nil]
        · intro heq
          have hu := toUnsigned_of_eq r _ heq
          simp [BulkApp.leavesLoop, hu] at hleave
      · replace hleave : BulkApp.leavesLoop w r = false := by simpa using hleave
        simp only [BulkApp.sendLoop, hmore, hnone, hleave, if_true, Bool.false_eq_true,
          if_false] at h
        have hsock' : (BulkApp.sendOnce w r).app.socket.isSome = true := by
          simpa [BulkApp.sendOnce, BulkSim.call] using hsock
        obtain ⟨pre, req, ret, h1, h2⟩ := ih _ w' rest hsock' h hwork
        refine ⟨(w.app.toSend, toInt32 r) :: pre, req, ret, ?_, h2⟩
        rw [h1, hc.2.2.2]
        simp
    · exfalso
      replace hmore : w.app.moreToSend = false := by simpa using hmore
      simp only [BulkApp.sendLoop_done w _ hmore, Option.some.injEq, Prod.mk.injEq] at h
      rw [← h.1, hmore] at hwork
      exact absurd hwork (by simp)

/-- A step never changes the number of packets asked for, and a sender with an
event pending has a socket and has not aborted: both survive every step. -/
theorem PacedSim.step_alive (w : PacedSim) (ev : PacedEvent)
    (halive : w.sched.pending ≠ [] → w.app.socket = true ∧ w.aborted = false) :
    (w.step ev).app.nPackets = w.app.nPackets ∧
    ((w.step ev).sched.pending ≠ [] →
      (w.step ev).app.socket = true ∧ (w.step ev).aborted = false) := by
  by_cases hab : w.aborted = true
  · have hs : w.step ev = w := by simp [PacedSim.step, hab]
    rw [hs]
    exact ⟨rfl, halive⟩
  · replace hab : w.aborted = false := by simpa using hab
    obtain ⟨⟨now, uid, pend⟩, tr, ab, ⟨sock, ps, n, rate, sev, running, sent⟩⟩ := w
    simp only at hab halive
    subst hab
    cases ev with
    | start =>
      cases sock
      · refine ⟨by simp [PacedSim.step, MyApp.StartApplication], ?_⟩
        intro hne
        have hp : pend ≠ [] := by
          simpa [PacedSim.step, MyApp.StartApplication] using hne
        exact absurd (halive hp).1 (by simp)
      · by_cases h1 : 1 < n <;>
          simp [PacedSim.step, MyApp.StartApplication, MyApp.SendPacket, PacedSim.call,
            MyApp.ScheduleTx, Scheduler.schedule, h1]
    | stop =>
      refine ⟨?_, ?_⟩
      · cases sev with
        | none => cases sock <;> simp [PacedSim.step, MyApp.StopApplication, PacedSim.call]
        | some id =>
          by_cases hp : Scheduler.isPending ⟨now, uid, pend⟩ id = true <;>
            cases sock <;>
              simp [PacedSim.step, MyApp.StopApplication, PacedSim.call, hp]
      · intro hne
        have hp : pend ≠ [] := by
          intro hq
          subst hq
          revert hne
          cases sev <;> cases sock <;>
            simp [PacedSim.step, MyApp.StopApplication, PacedSim.call, Scheduler.isPending,
              Scheduler.cancel]
        have hsock := (halive hp).1
        simp only at hsock
        subst hsock
        cases sev with
        | none => simp [PacedSim.step, MyApp.StopApplication, PacedSim.call]
        | some id =>
          by_cases hp : Scheduler.isPending ⟨now, uid, pend⟩ id = true <;>
            simp [PacedSim.step, MyApp.StopApplication, PacedSim.call, hp]
    | fire =>
      cases hpop : Scheduler.pop ⟨now, uid, pend⟩ with
      | none =>
        have hs : PacedSim.step ⟨⟨now, uid, pend⟩, tr, false,
            ⟨sock, ps, n, rate, sev, running, sent⟩⟩ .fire
            = ⟨⟨now, uid, pend⟩, tr, false, ⟨sock, ps, n, rate, sev, running, sent⟩⟩ := by
          simp [PacedSim.step, PacedSim.fire, hpop]
        rw [hs]
        exact ⟨rfl, halive⟩
      | some r =>
        have hp : pend ≠ [] := by
          intro hq
          subst hq
          simp [Scheduler.pop, Scheduler.earliest] at hpop
        have hsock := (halive hp).1
        simp only at hsock
        subst hsock
        by_cases h1 : (sent + 1) % 4294967296 < n <;> cases running <;>
          simp [PacedSim.step, PacedSim.fire, hpop, MyApp.SendPacket, PacedSim.call,
            MyApp.ScheduleTx, Scheduler.schedule, h1]
    | advance t =>
      obtain ⟨a1, _, _, a4, a5⟩ := PacedSim.advance_keeps
        ⟨⟨now, uid, pend⟩, tr, false, ⟨sock, ps, n, rate, sev, running, sent⟩⟩ t
      rw [a5, a4, a1]
      exact ⟨rfl, halive⟩

/-- The facts of `PacedSim.step_alive` along a whole sequence of events. -/
theorem PacedSim.steps_alive (evs : List PacedEvent) : ∀ w : PacedSim,
    (w.sched.pending ≠ [] → w.app.socket = true ∧ w.aborted = false) →
    (w.steps evs).app.nPackets = w.app.nPackets ∧
    ((w.steps evs).sched.pending ≠ [] →
      (w.steps evs).app.socket = true ∧ (w.steps evs).aborted = false) := by
  induction evs with
  | nil => intro w h; exact ⟨rfl, h⟩
  | cons ev evs ih =>
    intro w h
    obtain ⟨s1, s2⟩ := PacedSim.step_alive w ev h
    obtain ⟨i1, i2⟩ := ih (w.step ev) s2
    simp only [PacedSim.steps, List.foldl_cons] at i1 i2 ⊢
    exact ⟨by rw [i1, s1], i2⟩

/-! ## Claims -/

/-- C1: for every packet size, every non-zero data rate and every
`totalPackets >= 1`, a `MyApp` that is set up, started once and then driven by
firing the scheduled events until none is pending issues exactly `totalPackets`
sends, each of `packetSize` bytes, and ends with `packetsSent = totalPackets`,
the socket closed (one close, the last call of the trace) and `running = false`;
no stop is part of the run. -/
theorem C1_paced_sends_all_then_closes (t0 : ℚ) (ps n rate fuel : Nat)
    (_hps : ps < 2 ^ 32) (_hrate : rate ≠ 0) (hn1 : 1 ≤ n) (hn : n < 2 ^ 32)
    (hfuel : n - 1 ≤ fuel) :
    (PacedSim.run fuel
      (PacedSim.started t0 ps n rate)).sched.pending = [] ∧
    (sendsOf (PacedSim.run fuel
      (PacedSim.started t0 ps n rate)).trace).map Prod.snd
        = List.replicate n ps ∧
    (closesOf (PacedSim.run fuel
      (PacedSim.started t0 ps n rate)).trace).length = 1 ∧
    ((PacedSim.run fuel
      (PacedSim.started t0 ps n rate)).trace.getLast?).map
        Prod.snd = some SockCall.close ∧
    (PacedSim.run fuel
      (PacedSim.started t0 ps n rate)).app.packetsSent = n ∧
    (PacedSim.run fuel
      (PacedSim.started t0 ps n rate)).app.running = false ∧
    (PacedSim.run fuel
      (PacedSim.started t0 ps n rate)).aborted = false := by
  obtain ⟨h1, h2, h3, h4, h5⟩ := PacedSim.start_then_run t0 ps n rate fuel hn1 hn hfuel
  refine ⟨h1, ?_, ?_, ?_, h4, h3, h2⟩
  · rw [h5]
    have hconst : ∀ (g : Nat → ℚ) (l : List Nat),
        List.map Prod.snd (List.filterMap (fun x => some (g x, ps)) l)
          = List.replicate l.length ps := by
      intro g l
      induction l with
      | nil => rfl
      | cons a l ih => simp [List.replicate_succ, ih]
    simp [sendsOf, List.filterMap_append, List.filterMap_map, Function.comp_def]
    rw [hconst, List.length_range]
  · rw [h5]
    simp [closesOf, List.filterMap_append, List.filterMap_map, Function.comp_def]
  · rw [h5, List.getLast?_concat]
    rfl

/-- Witness of C1: the configuration of `main`, 10 packets of 1000 bytes at
1 Mbit/s, started at 1 s. -/
theorem C1_paced_sends_all_then_closes_witness :
    (1000 < 2 ^ 32 ∧ 1000000 ≠ 0 ∧ 1 ≤ 10 ∧ 10 < 2 ^ 32 ∧ 10 - 1 ≤ 9) ∧
    (PacedSim.run 9
      (PacedSim.started 1 1000 10 1000000)).app.packetsSent
        = 10 :=
  ⟨by decide,
   (C1_paced_sends_all_then_closes 1 1000 10 1000000 9 (by decide) (by decide) (by decide)
      (by decide) (by decide)).2.2.2.2.1⟩

/-- C2: for every `sendSize >= 1` and `maxBytes > 0`, when every send returns
the size it was asked to send (an `int`), the send loop of a connected sender
with `totalBytesSent = 0` sends `sendSize` bytes `maxBytes / sendSize` times,
then the remainder `maxBytes % sendSize` if that is not zero, and ends with
`totalBytesSent = maxBytes`, `connected = false` and one close of the socket,
issued after the last send. -/
theorem C2_bulk_sends_exactly_maxBytes (w : BulkSim) (rest : List Int)
    (hss : 1 ≤ w.app.sendSize) (hmb : 0 < w.app.maxBytes) (hmb64 : w.app.maxBytes < 2 ^ 64)
    (hsock : w.app.socket.isSome = true) (hab : w.aborted = false)
    (hconn : w.app.connected = true) (htot : w.app.totBytes = 0)
    (hint : ∀ n ∈ chunksOf w.app.sendSize w.app.maxBytes, n < 2 ^ 31) :
    ∃ w', BulkApp.SendData w
        ((chunksOf w.app.sendSize w.app.maxBytes).map Int.ofNat ++ rest) = some (w', rest) ∧
      w'.trace = w.trace ++
        (chunksOf w.app.sendSize w.app.maxBytes).map (fun n => BulkCall.send n n) ++
        [BulkCall.close] ∧
      w'.app.totBytes = w.app.maxBytes ∧
      w'.app.connected = false ∧
      bulkCloses w'.trace = bulkCloses w.trace + 1 := by
  have hq : w.app.maxBytes / w.app.sendSize ≠ 0 → w.app.sendSize < 2 ^ 31 := by
    intro h
    apply hint
    simp [chunksOf, h]
  have hrem : w.app.maxBytes % w.app.sendSize < 2 ^ 31 := by
    by_cases h0 : w.app.maxBytes % w.app.sendSize = 0
    · rw [h0]; norm_num
    · apply hint
      simp [chunksOf, h0]
  have hloop : BulkApp.sendLoop { w with log := w.log ++ [.startTime w.now] }
      ((chunksOf w.app.sendSize w.app.maxBytes).map Int.ofNat ++ rest)
      = some ({ w with
                trace := w.trace ++
                  (chunksOf w.app.sendSize w.app.maxBytes).map (fun n => BulkCall.send n n),
                log := w.log ++ [.startTime w.now],
                app := { w.app with totBytes := w.app.maxBytes } }, rest) :=
    BulkApp.sendLoop_all_accepted (w.app.maxBytes / w.app.sendSize)
      { w with log := w.log ++ [.startTime w.now] } (w.app.maxBytes % w.app.sendSize) rest
      hsock hmb hmb64 hss (Nat.mod_lt _ (by omega))
      (by
        have := Nat.div_add_mod w.app.maxBytes w.app.sendSize
        simp only [htot]
        rw [Nat.mul_comm] at this
        omega)
      hq hrem
  have hnone : w.app.socket.isNone = false := by
    cases hs : w.app.socket <;> simp_all
  refine ⟨BulkApp.closeIfDone w.now
    { w with
      trace := w.trace ++
        (chunksOf w.app.sendSize w.app.maxBytes).map (fun n => BulkCall.send n n),
      log := w.log ++ [.startTime w.now],
      app := { w.app with totBytes := w.app.maxBytes } }, ?_, ?_, ?_, ?_, ?_⟩
  · simp only [BulkApp.SendData, hloop]
  · simp [BulkApp.closeIfDone, hab, hconn, hnone, BulkSim.call]
  · simp [BulkApp.closeIfDone, hab, hconn, hnone, BulkSim.call]
  · simp [BulkApp.closeIfDone, hab, hconn, hnone, BulkSim.call]
  · simp [BulkApp.closeIfDone, hab, hconn, hnone, BulkSim.call, bulkCloses,
      List.count_append]
    rw [List.count_eq_zero]
    simp

/-- Witness of C2: `sendSize = 512` and `maxBytes = 2000` give the sends 512,
512, 512, 464 and `totalBytesSent = 2000`. -/
theorem C2_bulk_sends_exactly_maxBytes_witness :
    ∃ w', BulkApp.SendData
        { now := 0, trace := [], log := [], aborted := false,
          app := { socket := some .stream, connected := true, totBytes := 0, sendSize := 512,
                   maxBytes := 2000, tid := .stream, peer := .inet } }
        [512, 512, 512, 464] = some (w', []) ∧
      w'.trace = [.send 512 512, .send 512 512, .send 512 512, .send 464 464, .close] ∧
      w'.app.totBytes = 2000 ∧
      w'.app.connected = false ∧
      bulkCloses w'.trace = 1 :=
  C2_bulk_sends_exactly_maxBytes
    { now := 0, trace := [], log := [], aborted := false,
      app := { socket := some .stream, connected := true, totBytes := 0, sendSize := 512,
               maxBytes := 2000, tid := .stream, peer := .inet } } []
    (by decide) (by decide) (by decide) rfl rfl rfl rfl (by decide)

/-- C3: for a bulk sender with `maxBytes > 0`, in every state reached from
construction by start, stop, connect-succeeded, connect-failed and
send-buffer-available events (and the passing of time), `totalBytesSent` is at
most `maxBytes`, provided no send reported more bytes accepted than it was
asked to send. -/
theorem C3_bulk_never_exceeds_maxBytes (t0 : ℚ) (sendSize maxBytes : Nat)
    (tid : SocketType) (peer : PeerKind) (hmb : 0 < maxBytes)
    (evs : List BulkEvent) (rets rest : List Int) (w : BulkSim)
    (hrun : (BulkSim.init t0 (BulkApp.new sendSize maxBytes tid peer)).steps evs rets
      = some (w, rest))
    (hproviso : ∀ c ∈ bulkSends w.trace, c.2 ≤ (c.1 : Int)) :
    w.app.totBytes ≤ maxBytes := by
  have := BulkSim.steps_core
    (fun c => c.2.1 = maxBytes ∧ (c.1 ≤ maxBytes ∨ ∃ x ∈ c.2.2.2, (x.1 : Int) < x.2))
    (by
      intro v r ⟨hm, hv⟩ hmore
      rw [BulkApp.core_sendOnce]
      refine ⟨hm, ?_⟩
      simp only [BulkSim.core] at hm hv
      rcases hv with hv | ⟨x, hx, hbad⟩
      · by_cases hle : toInt32 r ≤ (v.app.toSend : Int)
        · left
          have hlt : v.app.totBytes < maxBytes := by
            simp only [BulkApp.moreToSend, hm, Bool.or_eq_true, beq_iff_eq,
              decide_eq_true_eq] at hmore
            omega
          have hts : v.app.toSend ≤ maxBytes - v.app.totBytes := by
            simp only [BulkApp.toSend, hm, hmb, if_true]
            exact Nat.min_le_right _ _
          split_ifs with hpos
          · have : (toInt32 r).toNat ≤ v.app.toSend := by omega
            exact le_trans (Nat.mod_le _ _) (by omega)
          · exact hv
        · right
          exact ⟨(v.app.toSend, toInt32 r), by simp, by simpa using hle⟩
      · right
        exact ⟨x, by simp [hx], hbad⟩)
    evs _ w rets rest hrun
    (by simp [BulkSim.core, BulkSim.init, BulkApp.new])
  simp only [BulkSim.core] at this
  rcases this.2 with h | ⟨x, hx, hbad⟩
  · exact h
  · exact absurd (hproviso x hx) (by omega)

/-- Witness of C3: 2000 bytes in chunks of 512, the first send cut short by
the socket. -/
theorem C3_bulk_never_exceeds_maxBytes_witness :
    ∃ w rest, (BulkSim.init 0 (BulkApp.new 512 2000 .stream .inet)).steps
        [.start, .connectSucceeded, .dataSend] [100, 512, 512, 512, 364] = some (w, rest) ∧
      w.app.totBytes ≤ 2000 :=
  ⟨_, _, rfl,
    C3_bulk_never_exceeds_maxBytes 0 512 2000 .stream .inet (by decide)
      [.start, .connectSucceeded, .dataSend] [100, 512, 512, 512, 364] _ _ rfl (by decide)⟩

/-- C4 on the code: an unbounded sender (`maxBytes == 0`) whose first send
after the connect returns 0 closes its socket and drops `connected`, although
nobody stopped it. -/
theorem C4_bulk_unbounded_closes_itself :
    ((BulkSim.init 0 (BulkApp.new 512 0 .stream .inet)).steps
        [.start, .connectSucceeded] [0]).map
      (fun p => (p.1.trace, p.1.app.connected, p.1.app.totBytes))
      = some ([.bind, .connect, .shutdownRecv, .setConnectCallback, .setSendCallback,
               .send 512 0, .close], false, 0) := by
  decide

/-- C5 (as the code has it): in every run of a freshly set-up `MyApp` (any
sequence of start, stop, firings of pending events and passing of time) in
which start is never called while an event is pending, a stop called while the
send event is pending finds `packetsSent < totalPackets`, sets
`running = false`, cancels the pending event and issues exactly one close; no
later step of the scheduler calls the socket, and `packetsSent` stays where it
was, below `totalPackets`. -/
theorem C5_paced_stop_cancels_sole_event (t0 : ℚ) (sock : Bool) (ps n rate : Nat)
    (hn : n < 2 ^ 32) (evs later : List PacedEvent)
    (hidle : PacedSim.startsWhenIdle (PacedSim.init t0 (MyApp.new.Setup sock ps n rate)) evs
      = true)
    (hlater : ∀ ev ∈ later, ev = PacedEvent.fire ∨ ∃ t, ev = PacedEvent.advance t)
    (pre post : PacedSim)
    (hpre : pre = (PacedSim.init t0 (MyApp.new.Setup sock ps n rate)).steps evs)
    (hpend : ∃ id, pre.app.sendEvent = some id ∧ pre.sched.isPending id = true)
    (hpost : post = pre.step .stop) :
    pre.app.packetsSent < n ∧
    post.app.running = false ∧
    post.sched.pending = [] ∧
    post.trace = pre.trace ++ [(pre.sched.now, .close)] ∧
    (post.steps later).trace = post.trace ∧
    (post.steps later).sched.pending = [] ∧
    (post.steps later).app.packetsSent = pre.app.packetsSent ∧
    (post.steps later).app.packetsSent < n := by
  have hne : pre.sched.pending ≠ [] := by
    obtain ⟨id, _, hp⟩ := hpend
    intro hq
    simp [Scheduler.isPending, hq] at hp
  have hone := PacedSim.steps_one_pending evs
    (PacedSim.init t0 (MyApp.new.Setup sock ps n rate)) hn (Or.inl rfl) hidle
  have halive := PacedSim.steps_alive evs
    (PacedSim.init t0 (MyApp.new.Setup sock ps n rate)) (fun h => absurd rfl h)
  rw [← hpre] at hone halive
  obtain ⟨hnp, hal⟩ := halive
  obtain ⟨hsock, hab⟩ := hal hne
  have hnp2 : pre.app.nPackets = n := hnp
  rcases hone with hq | ⟨e, hq, _, hlt, hev⟩
  · exact absurd hq hne
  · have hstop := PacedSim.stop_cancels pre e hab hsock hq hev
    rw [← hpost] at hstop
    obtain ⟨i1, i2, i3⟩ :=
      PacedSim.idle_when_nothing_pending later post (by rw [hstop]) hlater
    have hpa : post.app.packetsSent = pre.app.packetsSent := by rw [hstop]
    rw [hnp2] at hlt
    refine ⟨hlt, by rw [hstop], by rw [hstop], by rw [hstop], i2, i1, ?_, ?_⟩
    · rw [i3, hpa]
    · rw [i3, hpa]
      exact hlt

/-- Witness of C5: the sender of `main` is started, fires once, is stopped,
started again and fires once more; the stop that follows cancels the one
pending event, and the two firings after it send nothing. -/
theorem C5_paced_stop_cancels_sole_event_witness :
    (10 < 2 ^ 32 ∧
     PacedSim.startsWhenIdle (PacedSim.init 1 (MyApp.new.Setup true 1000 10 1000000))
       [.start, .fire, .stop, .start, .fire] = true ∧
     ∃ id, ((PacedSim.init 1 (MyApp.new.Setup true 1000 10 1000000)).steps
         [.start, .fire, .stop, .start, .fire]).app.sendEvent = some id ∧
       ((PacedSim.init 1 (MyApp.new.Setup true 1000 10 1000000)).steps
         [.start, .fire, .stop, .start, .fire]).sched.isPending id = true) ∧
    ((((PacedSim.init 1 (MyApp.new.Setup true 1000 10 1000000)).steps
        [.start, .fire, .stop, .start, .fire]).step .stop).steps [.fire, .fire]).trace
      = (((PacedSim.init 1 (MyApp.new.Setup true 1000 10 1000000)).steps
        [.start, .fire, .stop, .start, .fire]).step .stop).trace :=
  ⟨⟨by decide, by decide, 3, by decide, by decide⟩,
   (C5_paced_stop_cancels_sole_event 1 true 1000 10 1000000 (by decide)
      [.start, .fire, .stop, .start, .fire] [.fire, .fire] (by decide) (by simp) _ _ rfl
      ⟨3, by decide, by decide⟩ rfl).2.2.2.2.1⟩

/-- C5 fails as stated: the sender of `main` is started twice in a row, so two
events are pending and `m_sendEvent` holds the second. A stop is then called
while `packetsSent = 1 < 10` and that send event is pending: it cancels the
second event only, the first one fires after the stop, sends a third packet
and takes `packetsSent` from 1 to 2. -/
theorem C5_counterexample :
    (((PacedSim.init 1 (MyApp.new.Setup true 1000 10 1000000)).steps
        [.start, .start]).app.packetsSent = 1 ∧
     ((PacedSim.init 1 (MyApp.new.Setup true 1000 10 1000000)).steps
        [.start, .start]).app.sendEvent = some 1 ∧
     ((PacedSim.init 1 (MyApp.new.Setup true 1000 10 1000000)).steps
        [.start, .start]).sched.isPending 1 = true) ∧
    ((PacedSim.init 1 (MyApp.new.Setup true 1000 10 1000000)).steps
        [.start, .start, .stop]).app.running = false ∧
    ((PacedSim.init 1 (MyApp.new.Setup true 1000 10 1000000)).steps
        [.start, .start, .stop]).sched.pending.map SchedEvent.uid = [0] ∧
    (sendsOf ((PacedSim.init 1 (MyApp.new.Setup true 1000 10 1000000)).steps
        [.start, .start, .stop]).trace).length = 2 ∧
    (sendsOf ((PacedSim.init 1 (MyApp.new.Setup true 1000 10 1000000)).steps
        [.start, .start, .stop, .fire]).trace).length = 3 ∧
    ((PacedSim.init 1 (MyApp.new.Setup true 1000 10 1000000)).steps
        [.start, .start, .stop, .fire]).app.packetsSent = 2 := by
  decide

/-- C6 (as the code has it): for both senders and every state, a second
`StopApplication` right after the first leaves every field of the sender, the
scheduler and the clock as the first stop left them, but issues one more
`Close` on the socket whenever the sender holds one (`m_socket` is never
reset); without a socket the bulk sender only logs its warning again. -/
theorem C6_second_stop_closes_again (w : PacedSim) (b : BulkSim) :
    ((MyApp.StopApplication (MyApp.StopApplication w)).app = (MyApp.StopApplication w).app ∧
     (MyApp.StopApplication (MyApp.StopApplication w)).sched = (MyApp.StopApplication w).sched ∧
     (MyApp.StopApplication (MyApp.StopApplication w)).aborted
        = (MyApp.StopApplication w).aborted ∧
     (MyApp.StopApplication (MyApp.StopApplication w)).trace
        = (MyApp.StopApplication w).trace ++
            (if w.app.socket then [(w.sched.now, SockCall.close)] else [])) ∧
    ((BulkApp.StopApplication (BulkApp.StopApplication b)).app
        = (BulkApp.StopApplication b).app ∧
     (BulkApp.StopApplication (BulkApp.StopApplication b)).now
        = (BulkApp.StopApplication b).now ∧
     (BulkApp.StopApplication (BulkApp.StopApplication b)).aborted
        = (BulkApp.StopApplication b).aborted ∧
     (BulkApp.StopApplication (BulkApp.StopApplication b)).trace
        = (BulkApp.StopApplication b).trace ++
            (if b.app.socket.isSome then [BulkCall.close] else []) ∧
     (BulkApp.StopApplication (BulkApp.StopApplication b)).log
        = (BulkApp.StopApplication b).log ++
            (if b.app.socket.isSome then [] else [LogLine.nullSocketWarning])) := by
  constructor
  · obtain ⟨sch, tr, ab, ⟨sock, ps, n, rate, ev, running, sent⟩⟩ := w
    cases ev with
    | none => cases sock <;> simp [MyApp.StopApplication, PacedSim.call]
    | some id =>
      by_cases hp : sch.isPending id = true
      · cases sock <;>
          simp [MyApp.StopApplication, PacedSim.call, hp, Scheduler.cancel_not_pending,
            Scheduler.cancel]
      · cases sock <;> simp [MyApp.StopApplication, PacedSim.call, hp]
  · obtain ⟨now, tr, lg, ab, ⟨sock, conn, tot, ss, mb, tid, peer⟩⟩ := b
    cases sock <;> simp [BulkApp.StopApplication, BulkSim.call]

/-- C6 fails as stated: after a second stop the socket of a started `MyApp`
has been closed twice, not once, and so has the socket of a started bulk
sender. -/
theorem C6_counterexample :
    (closesOf ((PacedSim.started 1 1000 10 1000000).steps [.stop]).trace).length = 1 ∧
    (closesOf ((PacedSim.started 1 1000 10 1000000).steps [.stop, .stop]).trace).length = 2 ∧
    ((BulkSim.init 0 (BulkApp.new 512 0 .stream .inet)).steps [.start, .stop] []).map
        (fun p => bulkCloses p.1.trace) = some 1 ∧
    ((BulkSim.init 0 (BulkApp.new 512 0 .stream .inet)).steps [.start, .stop, .stop] []).map
        (fun p => bulkCloses p.1.trace) = some 2 := by
  refine ⟨?_, ?_, ?_, ?_⟩
  · decide
  · decide
  · decide
  · decide

/-- C8 (as the code has it): for a bulk sender with `maxBytes == 0`, after
every sequence of events and whatever `Socket::Send` returns, `totalBytesSent`
is the total of the positive values returned so far, modulo `2 ^ 64` (zero
and negative results add nothing); and it does not decrease over a step as long
as that total stays below `2 ^ 64`. -/
theorem C8_bulk_total_is_sum_of_positive_results (t0 : ℚ) (sendSize : Nat)
    (tid : SocketType) (peer : PeerKind)
    (evs : List BulkEvent) (rets rest : List Int) (w : BulkSim)
    (hrun : (BulkSim.init t0 (BulkApp.new sendSize 0 tid peer)).steps evs rets
      = some (w, rest)) :
    w.app.totBytes = acceptedSum (bulkSends w.trace) % 2 ^ 64 ∧
    ∀ (ev : BulkEvent) (w' : BulkSim) (rest' : List Int),
      w.step ev rest = some (w', rest') →
      acceptedSum (bulkSends w'.trace) < 2 ^ 64 →
      w.app.totBytes ≤ w'.app.totBytes := by
  have hw := BulkSim.totBytes_eq_acceptedSum evs _ w rets rest hrun
    (by simp [BulkSim.init, BulkApp.new, bulkSends, acceptedSum])
  refine ⟨hw, ?_⟩
  intro ev w' rest' hstep hsmall
  have hw' := BulkSim.totBytes_eq_acceptedSum [ev] w w' rest rest'
    (by simp only [BulkSim.steps, hstep]) hw
  obtain ⟨l, hl⟩ := BulkSim.step_sends_grow w w' ev rest rest' hstep
  rw [hw, hw', Nat.mod_eq_of_lt hsmall, hl, acceptedSum_append]
  exact le_trans (Nat.mod_le _ _) (Nat.le_add_right _ _)

/-- Witness of C8: an unbounded sender whose three sends return 512, -1 and
100. -/
theorem C8_bulk_total_is_sum_of_positive_results_witness :
    ∃ w rest, (BulkSim.init 0 (BulkApp.new 512 0 .stream .inet)).steps
        [.start, .connectSucceeded, .dataSend] [512, -1, 100] = some (w, rest) ∧
      w.app.totBytes = acceptedSum (bulkSends w.trace) % 2 ^ 64 :=
  ⟨_, _, rfl,
    (C8_bulk_total_is_sum_of_positive_results 0 512 .stream .inet
      [.start, .connectSucceeded, .dataSend] [512, -1, 100] _ _ (by rfl)).1⟩

/-- C8 fails as stated: an unbounded sender whose only send returned -1 has
`totalBytesSent = 0`, while the values returned by send add up to -1. -/
theorem C8_counterexample :
    ((BulkSim.init 0 (BulkApp.new 512 0 .stream .inet)).steps
        [.start, .connectSucceeded] [-1]).map
      (fun p => ((p.1.app.totBytes : Int), ((bulkSends p.1.trace).map Prod.snd).sum))
      = some (0, -1) := by
  decide

/-- C9: a `MyApp` set up with `packetSize = 1000`, 1 Mbit/s and 10 packets and
started at virtual time `t0` sends 10 packets of 1000 bytes, the `k`-th
(`k = 0..9`) at `t0 + k * 0.008` s, closes its socket at `t0 + 0.072` s, and
then nothing is left to run. -/
theorem C9_paced_main_scenario (t0 : ℚ) (extra : Nat) :
    sendsOf (PacedSim.run (9 + extra)
      (PacedSim.started t0 1000 10 1000000)).trace
        = (List.range 10).map (fun (k : Nat) => (t0 + (k : ℚ) * (8 / 1000), 1000)) ∧
    closesOf (PacedSim.run (9 + extra)
      (PacedSim.started t0 1000 10 1000000)).trace
        = [t0 + 72 / 1000] ∧
    (PacedSim.run (9 + extra)
      (PacedSim.started t0 1000 10 1000000)).sched.pending
        = [] := by
  obtain ⟨h1, _, _, _, h5⟩ :=
    PacedSim.start_then_run t0 1000 10 1000000 (9 + extra) (by decide) (by decide) (by omega)
  have hd : (MyApp.new.Setup true 1000 10 1000000).txDelay = 8 / 1000 := by
    simp [MyApp.txDelay, MyApp.Setup, MyApp.new]
    norm_num
  refine ⟨?_, ?_, h1⟩
  · rw [h5, hd]
    simp [sendsOf, List.filterMap_append, List.filterMap_map, Function.comp_def,
      List.range_succ]
  · rw [h5, hd]
    simp [closesOf, List.filterMap_append, List.filterMap_map, Function.comp_def]
    norm_num

/-- C10: `StartApplication` on a bulk sender that has no socket yet (in any
state reached from construction) ends in the fatal error exactly when the
socket the factory creates is neither a stream nor a seqpacket socket.  When
it does, no call has been made on the socket, the sender is not connected, and
no later event changes anything; otherwise the socket has been bound (by
address family), connected and subscribed. -/
theorem C10_bulk_start_fatal_iff_wrong_socket_type (t0 : ℚ) (sendSize maxBytes : Nat)
    (tid : SocketType) (peer : PeerKind) (evs : List BulkEvent) (rets0 rets : List Int)
    (w : BulkSim)
    (hreach : (BulkSim.init t0 (BulkApp.new sendSize maxBytes tid peer)).steps evs rets0
      = some (w, rets))
    (hsock : w.app.socket = none) :
    ∃ w', w.step .start rets = some (w', rets) ∧
      (w'.aborted = true ↔
        (w.app.tid ≠ SocketType.stream ∧ w.app.tid ≠ SocketType.seqpacket)) ∧
      (w'.aborted = true →
        w'.trace = w.trace ∧ w'.app.connected = false ∧
        ∀ (later : List BulkEvent) (rets' : List Int),
          w'.steps later rets' = some (w', rets')) ∧
      (w'.aborted = false →
        w'.app.connected = false ∧
        w'.trace = w.trace ++
          (match w.app.peer with
            | .inet6 => [BulkCall.bind6]
            | .inet => [BulkCall.bind]
            | .other => []) ++
          [.connect, .shutdownRecv, .setConnectCallback, .setSendCallback]) := by
  obtain ⟨hconn, hab⟩ := BulkSim.idle_without_socket evs _ w rets0 rets hreach
    (fun _ => ⟨rfl, rfl⟩) hsock
  refine ⟨_, BulkSim.start_without_socket w rets hsock hab hconn, ?_, ?_, ?_⟩
  · split_ifs with h
    · simpa using h
    · simp only [hab, Bool.false_eq_true, false_iff]
      exact h
  · intro h
    split_ifs at h ⊢ with h1
    · exact ⟨rfl, hconn, fun later rets' => BulkSim.steps_of_aborted later _ rets' rfl⟩
    · simp [hab] at h
  · intro h
    split_ifs at h ⊢ with h1
    exact ⟨hconn, rfl⟩

/-- Witness of C10: a sender whose factory makes datagram sockets, stopped once
before it is started. -/
theorem C10_bulk_start_fatal_iff_wrong_socket_type_witness :
    ∃ w, ((BulkSim.init 0 (BulkApp.new 512 0 .dgram .inet)).steps [.stop] []
        = some (w, []) ∧ w.app.socket = none) ∧
      ∃ w', w.step .start [] = some (w', []) ∧
        (w'.aborted = true ↔
          (w.app.tid ≠ SocketType.stream ∧ w.app.tid ≠ SocketType.seqpacket)) :=
  ⟨_, ⟨rfl, rfl⟩,
    (C10_bulk_start_fatal_iff_wrong_socket_type 0 512 0 .dgram .inet [.stop] [] [] _
      (by rfl) (by rfl)).imp (fun _ h => ⟨h.1, h.2.1⟩)⟩

/-- C12 (as the code has it): a second start is a no-op only on a bulk sender
that holds a socket and is not connected.  On a connected bulk sender it runs
`SendData` again (nothing is bound or connected twice).  On a `MyApp` it binds
and connects again, sends one packet at once, leaves `packetsSent = 1`, and,
when `totalPackets > 1`, schedules one more event next to those pending;
otherwise it closes the socket. -/
theorem C12_second_start_is_not_idle (w : PacedSim) (b : BulkSim) (rets : List Int)
    (hab : w.aborted = false) (hsock : w.app.socket = true)
    (hbab : b.aborted = false) (hbsock : b.app.socket.isSome = true) :
    ((w.step .start).app.packetsSent = 1 ∧
     (w.step .start).trace = w.trace ++
        [(w.sched.now, .bind), (w.sched.now, .connect),
         (w.sched.now, .send w.app.packetSize)] ++
        (if 1 < w.app.nPackets then [] else [(w.sched.now, SockCall.close)]) ∧
     (w.step .start).sched.pending = w.sched.pending ++
        (if 1 < w.app.nPackets then
          [(⟨w.sched.nextUid, w.sched.now + w.app.txDelay⟩ : SchedEvent)] else []) ∧
     (w.step .start).app.running = decide (1 < w.app.nPackets)) ∧
    ((b.app.connected = false → b.step .start rets = some (b, rets)) ∧
     (b.app.connected = true → b.step .start rets = BulkApp.SendData b rets)) := by
  constructor
  · obtain ⟨⟨now, uid, pend⟩, tr, ab, ⟨sock, ps, n, rate, ev, running, sent⟩⟩ := w
    simp only at hab hsock
    subst hab hsock
    by_cases h : 1 < n <;>
      simp [PacedSim.step, MyApp.StartApplication, MyApp.SendPacket, PacedSim.call,
        MyApp.ScheduleTx, Scheduler.schedule, MyApp.txDelay, h]
  · have hnone : b.app.socket.isNone = false := by
      cases hs : b.app.socket <;> simp_all
    constructor
    · intro hc
      simp [BulkSim.step, BulkApp.StartApplication, hbab, hnone, hc]
    · intro hc
      simp [BulkSim.step, BulkApp.StartApplication, hbab, hnone, hc]

/-- Witness of C12: the sender of `main` right after its start, and a bulk
sender that has been started but is not connected yet. -/
theorem C12_second_start_is_not_idle_witness :
    ((PacedSim.started 1 1000 10 1000000).aborted = false ∧
     (PacedSim.started 1 1000 10 1000000).app.socket = true) ∧
    ∃ b, (BulkSim.init 0 (BulkApp.new 512 0 .stream .inet)).step .start [] = some (b, []) ∧
      (b.app.connected = false → b.step .start [] = some (b, [])) :=
  ⟨by decide, _, rfl,
    (C12_second_start_is_not_idle (PacedSim.started 1 1000 10 1000000) _ []
      (by decide) (by decide) (by rfl) (by rfl)).2.1⟩

/-- C12 fails as stated: started a second time, the sender of `main` has bound
its socket twice, has sent two packets and has two events pending; a connected
bulk sender that is started again calls `Socket::Send` again. -/
theorem C12_counterexample :
    ((PacedSim.started 1 1000 10 1000000).steps [.start]).trace.map Prod.snd
      = [.bind, .connect, .send 1000, .bind, .connect, .send 1000] ∧
    ((PacedSim.started 1 1000 10 1000000).steps [.start]).sched.pending.length = 2 ∧
    ((BulkSim.init 0 (BulkApp.new 512 0 .stream .inet)).steps
        [.start, .connectSucceeded] [100, 200]).map (fun p => (bulkSends p.1.trace).length)
      = some 1 ∧
    ((BulkSim.init 0 (BulkApp.new 512 0 .stream .inet)).steps
        [.start, .connectSucceeded, .start] [100, 200]).map
          (fun p => (bulkSends p.1.trace).length)
      = some 2 := by
  refine ⟨?_, ?_, ?_, ?_⟩ <;> decide

/-- C13: a `MyApp` set up with `totalPackets == 0` and started sends exactly one
packet of `packetSize` bytes, then closes its socket and sets
`running = false`; no event is scheduled, so nothing happens afterwards. -/
theorem C13_paced_zero_packets_sends_one (t0 : ℚ) (ps rate fuel : Nat) :
    (PacedSim.started t0 ps 0 rate).trace
      = [(t0, .bind), (t0, .connect), (t0, .send ps), (t0, .close)] ∧
    sendsOf (PacedSim.started t0 ps 0 rate).trace = [(t0, ps)] ∧
    (PacedSim.started t0 ps 0 rate).app.running = false ∧
    (PacedSim.started t0 ps 0 rate).app.packetsSent = 1 ∧
    (PacedSim.started t0 ps 0 rate).sched.pending = [] ∧
    (PacedSim.started t0 ps 0 rate).aborted = false ∧
    PacedSim.run fuel (PacedSim.started t0 ps 0 rate) = PacedSim.started t0 ps 0 rate := by
  have h0 : PacedSim.started t0 ps 0 rate =
      { sched := { now := t0, nextUid := 0, pending := [] },
        trace := [(t0, .bind), (t0, .connect), (t0, .send ps), (t0, .close)],
        aborted := false,
        app := { socket := true, packetSize := ps, nPackets := 0, dataRate := rate,
                 sendEvent := none, running := false, packetsSent := 1 } } := by
    simp [PacedSim.started, PacedSim.step, PacedSim.init, MyApp.StartApplication,
      MyApp.SendPacket, PacedSim.call, MyApp.new, MyApp.Setup]
  rw [PacedSim.run_of_no_pending fuel _ (by rw [h0]), h0]
  simp [sendsOf]

/-- C14 on the code: a flow of 1000 bytes in chunks of 512 is connected at 0 s,
stalls on a send that returns 100, and is resumed by the send-buffer-available
callback at 5 s, where it completes and closes.  The log then holds the start
times 0 and 5 and a flow duration of 0, not of 5. -/
theorem C14_bulk_flow_duration_restarts :
    ((BulkSim.init 0 (BulkApp.new 512 1000 .stream .inet)).steps
        [.start, .connectSucceeded, .advance 5, .dataSend] [100, 512, 388]).map
      (fun p => (p.1.log, p.1.app.totBytes, p.1.app.connected, bulkCloses p.1.trace))
      = some ([.startTime 0, .startTime 5, .flowDuration 0], 1000, false, 1) := by
  have h : ((BulkSim.init 0 (BulkApp.new 512 1000 .stream .inet)).steps
        [.start, .connectSucceeded, .advance 5, .dataSend] [100, 512, 388]).map
      (fun p => (p.1.log, p.1.app.totBytes, p.1.app.connected, bulkCloses p.1.trace))
      = some ([.startTime 0, .startTime 5, .flowDuration (5 - 5)], 1000, false, 1) := by
    rfl
  rw [h, sub_self]

/-- C15: the connect-failed callback changes no field of the state and calls
nothing on the socket.  A bulk sender whose connect never succeeded stays
inert: whatever sequence of start, stop, connect-failed and
send-buffer-available callbacks arrives after construction, the sender is not
connected and `Socket::Send` has never been called. -/
theorem C15_bulk_connect_failed_is_inert (t0 : ℚ) (sendSize maxBytes : Nat)
    (tid : SocketType) (peer : PeerKind) (w : BulkSim) (evs : List BulkEvent)
    (rets : List Int) (hnever : ∀ ev ∈ evs, ev ≠ BulkEvent.connectSucceeded) :
    BulkApp.ConnectionFailed w = w ∧
    w.step .connectFailed rets = some (w, rets) ∧
    ∃ w', (BulkSim.init t0 (BulkApp.new sendSize maxBytes tid peer)).steps evs rets
        = some (w', rets) ∧
      w'.app.connected = false ∧ bulkSends w'.trace = [] := by
  refine ⟨rfl, ?_, ?_⟩
  · simp only [BulkSim.step, BulkApp.ConnectionFailed]
    split_ifs <;> rfl
  · obtain ⟨w', h1, h2, h3⟩ := BulkSim.steps_unconnected evs
      (BulkSim.init t0 (BulkApp.new sendSize maxBytes tid peer)) rets rfl hnever
    exact ⟨w', h1, h2, h3⟩

/-- Witness of C15: a sender is started, its connect fails, and the
send-buffer-available callback fires twice. -/
theorem C15_bulk_connect_failed_is_inert_witness :
    (∀ ev ∈ [BulkEvent.start, .connectFailed, .dataSend, .dataSend],
      ev ≠ BulkEvent.connectSucceeded) ∧
    ∃ w', (BulkSim.init 0 (BulkApp.new 512 2000 .stream .inet)).steps
        [.start, .connectFailed, .dataSend, .dataSend] [512, 512] = some (w', [512, 512]) ∧
      w'.app.connected = false ∧ bulkSends w'.trace = [] :=
  ⟨by simp,
   (C15_bulk_connect_failed_is_inert 0 512 2000 .stream .inet
      (BulkSim.init 0 (BulkApp.new 512 2000 .stream .inet))
      [.start, .connectFailed, .dataSend, .dataSend] [512, 512] (by simp)).2.2⟩

/-- C16 on the code: with `sendSize = 4294967295` and no byte limit, a send
that returns -1 does not leave the loop, because `(unsigned) -1` equals the
size asked for; the loop goes on calling `Socket::Send` until a result differs
from -1. -/
theorem C16_bulk_error_result_keeps_looping :
    (BulkApp.SendData
        { now := 0, trace := [], log := [], aborted := false,
          app := { socket := some .stream, connected := true, totBytes := 0,
                   sendSize := 4294967295, maxBytes := 0, tid := .stream, peer := .inet } }
        [-1, -1, -1, 0]).map (fun p => (bulkSends p.1.trace, p.2))
      = some ([(4294967295, -1), (4294967295, -1), (4294967295, -1), (4294967295, 0)], []) := by
  decide

/-- C17 at `packetSize = 2 ^ 29`: the 32-bit product `packetSize * 8` wraps to
0, so the delay handed to the scheduler is 0 (a zero dividend gives 0 in double
precision as well): the second packet of a sender started at 0 s is due, and
sent, at 0 s. The quotient `packetSize * 8 / dataRate` without wrap-around is
`2 ^ 32 / 10 ^ 6` seconds, more than 4294 s. -/
theorem C17_paced_delay_wraps_to_zero :
    (MyApp.new.Setup true 536870912 10 1000000).txDelay = 0 ∧
    (PacedSim.started 0 536870912 10 1000000).sched.pending = [⟨0, 0⟩] ∧
    sendsOf ((PacedSim.started 0 536870912 10 1000000).steps [.fire]).trace
      = [(0, 536870912), (0, 536870912)] ∧
    (4294 : ℚ) < ((536870912 * 8 : Nat) : ℚ) / ((1000000 : Nat) : ℚ) := by
  have hd : (MyApp.new.Setup true 536870912 10 1000000).txDelay = 0 := by
    simp [MyApp.txDelay, MyApp.Setup, MyApp.new]
  have hs : PacedSim.started 0 536870912 10 1000000
      = ⟨⟨0, 1, [⟨0, 0⟩]⟩, [(0, .bind), (0, .connect), (0, .send 536870912)], false,
          ⟨true, 536870912, 10, 1000000, some 0, true, 1⟩⟩ := by
    simp [PacedSim.started, PacedSim.step, PacedSim.init, MyApp.StartApplication,
      MyApp.SendPacket, PacedSim.call, MyApp.new, MyApp.Setup, MyApp.ScheduleTx,
      Scheduler.schedule, MyApp.txDelay]
  refine ⟨hd, by rw [hs], ?_, by norm_num⟩
  rw [hs]
  simp [PacedSim.steps, PacedSim.step, PacedSim.fire, Scheduler.pop, Scheduler.earliest,
    MyApp.SendPacket, PacedSim.call, MyApp.ScheduleTx, Scheduler.schedule, MyApp.txDelay,
    sendsOf]

/-- C18 (as the code has it): in every state reached from a freshly set-up
`MyApp` by a sequence of start, stop, firings of pending events and passing of
time in which start is never called while an event is pending, the scheduler
holds at most one pending event, and it holds one only while `running` is true
and `packetsSent < totalPackets`. -/
theorem C18_paced_one_pending_event (t0 : ℚ) (sock : Bool) (ps n rate : Nat)
    (hn : n < 2 ^ 32) (evs : List PacedEvent)
    (hidle : PacedSim.startsWhenIdle (PacedSim.init t0 (MyApp.new.Setup sock ps n rate)) evs
      = true) :
    ((PacedSim.init t0 (MyApp.new.Setup sock ps n rate)).steps evs).sched.pending.length ≤ 1 ∧
    (((PacedSim.init t0 (MyApp.new.Setup sock ps n rate)).steps evs).sched.pending ≠ [] →
      ((PacedSim.init t0 (MyApp.new.Setup sock ps n rate)).steps evs).app.running = true ∧
      ((PacedSim.init t0 (MyApp.new.Setup sock ps n rate)).steps evs).app.packetsSent
        < ((PacedSim.init t0 (MyApp.new.Setup sock ps n rate)).steps evs).app.nPackets) := by
  rcases PacedSim.steps_one_pending evs (PacedSim.init t0 (MyApp.new.Setup sock ps n rate))
    hn (Or.inl rfl) hidle with h | ⟨e, h, hrun, hlt, _⟩
  · rw [h]
    exact ⟨by simp, fun hne => absurd rfl hne⟩
  · rw [h]
    exact ⟨by simp, fun _ => ⟨hrun, hlt⟩⟩

/-- Witness of C18: the sender of `main` is started, fires twice, is stopped
and started again. -/
theorem C18_paced_one_pending_event_witness :
    (10 < 2 ^ 32 ∧
     PacedSim.startsWhenIdle (PacedSim.init 1 (MyApp.new.Setup true 1000 10 1000000))
       [.start, .fire, .fire, .stop, .start] = true) ∧
    ((PacedSim.init 1 (MyApp.new.Setup true 1000 10 1000000)).steps
      [.start, .fire, .fire, .stop, .start]).sched.pending.length ≤ 1 :=
  ⟨⟨by decide, by decide⟩,
   (C18_paced_one_pending_event 1 true 1000 10 1000000 (by decide)
      [.start, .fire, .fire, .stop, .start] (by decide)).1⟩

/-- C18 fails as stated: started a second time while its first event is still
pending, the sender of `main` has two events pending. -/
theorem C18_counterexample :
    ((PacedSim.init 1 (MyApp.new.Setup true 1000 10 1000000)).steps
      [.start, .start]).sched.pending.map SchedEvent.uid = [0, 1] := by
  decide

/-- C19: for every bounded bulk sender (`maxBytes > 0`) with
`1 <= sendSize < 2 ^ 31` and `totalBytesSent <= maxBytes` on entry, and whatever
the sends return, one call of `SendData` ends after at most
`ceil ((maxBytes - totalBytesSent) / sendSize)` calls of `Socket::Send`: given
that many results it returns, and it has made no more sends than that. -/
theorem C19_bulk_send_loop_is_bounded (w : BulkSim) (rets : List Int)
    (hmb : 0 < w.app.maxBytes) (hmb64 : w.app.maxBytes < 2 ^ 64)
    (hss : 1 ≤ w.app.sendSize) (hss31 : w.app.sendSize < 2 ^ 31)
    (htot : w.app.totBytes ≤ w.app.maxBytes)
    (hlen : (w.app.maxBytes - w.app.totBytes + w.app.sendSize - 1) / w.app.sendSize
      ≤ rets.length) :
    ∃ w' rest, BulkApp.SendData w rets = some (w', rest) ∧
      (bulkSends w'.trace).length ≤ (bulkSends w.trace).length +
        (w.app.maxBytes - w.app.totBytes + w.app.sendSize - 1) / w.app.sendSize := by
  obtain ⟨w1, rest, h1, h2⟩ := BulkApp.sendLoop_bounded rets
    { w with log := w.log ++ [.startTime w.now] } hmb hmb64 hss hss31 htot hlen
  refine ⟨BulkApp.closeIfDone w.now w1, rest, by simp only [BulkApp.SendData, h1], ?_⟩
  have hc := BulkApp.core_closeIfDone w.now w1
  simp only [BulkSim.core, Prod.mk.injEq] at hc
  rw [hc.2.2.2]
  exact h2

/-- Witness of C19: 2000 bytes in chunks of 512 take at most four sends; here
the second send is cut short and ends the call. -/
theorem C19_bulk_send_loop_is_bounded_witness :
    ∃ w' rest, BulkApp.SendData
        { now := 0, trace := [], log := [], aborted := false,
          app := { socket := some .stream, connected := true, totBytes := 0, sendSize := 512,
                   maxBytes := 2000, tid := .stream, peer := .inet } }
        [512, 100, 512, 512] = some (w', rest) ∧
      (bulkSends w'.trace).length ≤ 0 + (2000 - 0 + 512 - 1) / 512 :=
  C19_bulk_send_loop_is_bounded
    { now := 0, trace := [], log := [], aborted := false,
      app := { socket := some .stream, connected := true, totBytes := 0, sendSize := 512,
               maxBytes := 2000, tid := .stream, peer := .inet } }
    [512, 100, 512, 512] (by decide) (by decide) (by decide) (by decide) (by decide)
    (by decide)

/-- C20: whenever a call of `SendData` on a sender that holds its socket returns
with work remaining (`maxBytes == 0` or `totalBytesSent < maxBytes`), it has
called `Socket::Send` at least once, and the last call returned a value
different from the size it asked for. -/
theorem C20_bulk_stall_follows_short_send (w w' : BulkSim) (rets rest : List Int)
    (hsock : w.app.socket.isSome = true)
    (hret : BulkApp.SendData w rets = some (w', rest))
    (hwork : w'.app.moreToSend = true) :
    ∃ (pre : List (Nat × Int)) (req : Nat) (ret : Int),
      bulkSends w'.trace = bulkSends w.trace ++ pre ++ [(req, ret)] ∧ ret ≠ (req : Int) := by
  simp only [BulkApp.SendData] at hret
  split at hret
  · exact absurd hret (by simp)
  · rename_i w1 rest1 hloop
    simp only [Option.some.injEq, Prod.mk.injEq] at hret
    have hc := BulkApp.core_closeIfDone w.now w1
    simp only [BulkSim.core, Prod.mk.injEq] at hc
    rw [← hret.1] at hwork ⊢
    have hwork1 : w1.app.moreToSend = true := by
      simpa [BulkApp.moreToSend, hc.1, hc.2.1] using hwork
    obtain ⟨pre, req, ret, h1, h2⟩ := BulkApp.sendLoop_left_by_short_send rets
      { w with log := w.log ++ [.startTime w.now] } w1 rest1 hsock hloop hwork1
    exact ⟨pre, req, ret, by rw [hc.2.2.2, h1], h2⟩

/-- Witness of C20: an unbounded sender whose second send returns 100 of 512
bytes. -/
theorem C20_bulk_stall_follows_short_send_witness :
    ∃ w', BulkApp.SendData
        { now := 0, trace := [], log := [], aborted := false,
          app := { socket := some .stream, connected := true, totBytes := 0, sendSize := 512,
                   maxBytes := 0, tid := .stream, peer := .inet } }
        [512, 100, 512] = some (w', [512]) ∧
      ∃ (pre : List (Nat × Int)) (req : Nat) (ret : Int),
        bulkSends w'.trace = [] ++ pre ++ [(req, ret)] ∧ ret ≠ (req : Int) :=
  ⟨_, rfl,
    C20_bulk_stall_follows_short_send
      { now := 0, trace := [], log := [], aborted := false,
        app := { socket := some .stream, connected := true, totBytes := 0, sendSize := 512,
                 maxBytes := 0, tid := .stream, peer := .inet } } _ [512, 100, 512] [512]
      rfl (by rfl) (by rfl)⟩

end NS3
